import Mathlib

/-!
Shallow embedding of the world/state engine of `src/src/main.rs` (a two-player
terminal resource game), together with proofs about its generation, movement,
placement and debug-log operations.

Modelling conventions:
* `usize` values are `Nat`; the Rust cast `as usize` applied to a possibly
  negative `isize`/`i32` value wraps modulo `2 ^ 64` and is modelled by
  `usizeCast`.
* The two Perlin noise comparisons (`noise_value > 0.4` for water and
  `noise_value > 0.2` for stone) are modelled as arbitrary boolean fields
  `water x y` / `stone x y`: the generator is randomly seeded, so every
  boolean field is a possible outcome and no claim depends on the numeric
  noise values themselves.
* The grid `[[CellState; GAME_WIDTH]; GAME_HEIGHT]` is a function
  `Nat → Nat → CellState`; `grid y x` mirrors `grid[y][x]`.
* Rust panics (index out of bounds, debug-mode arithmetic overflow) are
  modelled by `Option`-valued checked variants of the operations.
-/

namespace RustDig

def GAME_WIDTH : Nat := 60

def GAME_HEIGHT : Nat := 30

inductive CellState where
  | Empty
  | Player1Cell
  | Player2Cell
  | Stone
  | Water
  | Wall
deriving DecidableEq, Repr

abbrev Grid := Nat → Nat → CellState

structure Item where
  item_id : Nat
  item_name : String
  item_count : Nat
deriving DecidableEq, Repr

structure Player where
  player_id : Nat
  x : Nat
  y : Nat
  inventory : List Item
deriving DecidableEq, Repr

structure GameState where
  players : List Player
  grid : Grid
  debug_log : List String
  debug_panel_enabled : Bool

/-- Default used with `List.getD`; reachable states never fall back to it. -/
def defaultPlayer : Player := ⟨0, 0, 0, []⟩

def defaultItem : Item := ⟨0, "", 0⟩

def getPlayer (s : GameState) (i : Nat) : Player := s.players.getD i defaultPlayer

/-- Value of `inventory[0].item_count`, the "Stone" counter. -/
def Player.stoneCount (p : Player) : Nat := (p.inventory.getD 0 defaultItem).item_count

/-- Rust `as usize` applied to a (signed) integer value: wraps modulo `2 ^ 64`. -/
def usizeCast (i : Int) : Nat := (i % ((2 : Int) ^ 64)).toNat

/-- Embeds the `debug_log` update of `log_debug_message` (main.rs lines 56-62):
if the length is already at least 10, `remove(0)` drops the oldest entry, then
the message is pushed at the back. -/
def logList (l : List String) (message : String) : List String :=
  (if 10 ≤ l.length then l.drop 1 else l) ++ [message]

/-- `GameState::log_debug_message` (main.rs lines 56-62). -/
def log_debug_message (s : GameState) (message : String) : GameState :=
  { s with debug_log := logList s.debug_log message }

/-- `GameState::clear_debug_log` (main.rs lines 65-67). -/
def clear_debug_log (s : GameState) : GameState :=
  { s with debug_log := [] }

/-- Single cell assignment `grid[y][x] = v`. -/
def setCell (g : Grid) (y x : Nat) (v : CellState) : Grid :=
  fun y' x' => if y' = y ∧ x' = x then v else g y' x'

/-- Wall stamping loops of `generate_map` (main.rs lines 74-81): row `0`,
row `GAME_HEIGHT - 1`, column `0` and column `GAME_WIDTH - 1`, each index
running over the full `0..GAME_WIDTH` resp. `0..GAME_HEIGHT` range. -/
def stampWalls (g : Grid) : Grid :=
  fun y x =>
    if (y = 0 ∧ x < GAME_WIDTH) ∨ (y = GAME_HEIGHT - 1 ∧ x < GAME_WIDTH)
        ∨ (x = 0 ∧ y < GAME_HEIGHT) ∨ (x = GAME_WIDTH - 1 ∧ y < GAME_HEIGHT) then
      CellState.Wall
    else g y x

/-- Water loop of `generate_map` (main.rs lines 84-92): every interior cell
whose water noise sample exceeds the threshold becomes `Water`. -/
def waterPass (water : Nat → Nat → Bool) (g : Grid) : Grid :=
  fun y x =>
    if 1 ≤ y ∧ y < GAME_HEIGHT - 1 ∧ 1 ≤ x ∧ x < GAME_WIDTH - 1 ∧ water x y then
      CellState.Water
    else g y x

/-- Stone loop of `generate_map` (main.rs lines 95-103): every interior cell
whose stone noise sample exceeds the threshold and which is still `Empty`
becomes `Stone`. -/
def stonePass (stone : Nat → Nat → Bool) (g : Grid) : Grid :=
  fun y x =>
    if 1 ≤ y ∧ y < GAME_HEIGHT - 1 ∧ 1 ≤ x ∧ x < GAME_WIDTH - 1 ∧ stone x y
        ∧ g y x = CellState.Empty then
      CellState.Stone
    else g y x

/-- Pointwise description of the clearance loop of `generate_map`
(main.rs lines 106-125) for one player: cell `(y, x)` is written (to `Empty`)
exactly when it arises as `((player.y as isize + dy) as usize,
(player.x as isize + dx) as usize)` for one of the nine offsets and passes the
check `ny > 0 && ny < GAME_HEIGHT && nx > 0 && nx < GAME_WIDTH`.  A wrapped
cast (when `py + dy = -1`) produces `2 ^ 64 - 1`, which fails
`ny < GAME_HEIGHT`, so the written cells are exactly those at Chebyshev
distance at most 1 whose coordinates lie in `[1, GAME_HEIGHT)` resp.
`[1, GAME_WIDTH)`.  Note the upper bounds are the full grid bounds, not the
interior ones. -/
def inClearance (px py y x : Nat) : Prop :=
  ((y : Int) - (py : Int)).natAbs ≤ 1 ∧ ((x : Int) - (px : Int)).natAbs ≤ 1
    ∧ 1 ≤ y ∧ y < GAME_HEIGHT ∧ 1 ≤ x ∧ x < GAME_WIDTH

instance (px py y x : Nat) : Decidable (inClearance px py y x) := by
  unfold inClearance; infer_instance

def clearAround (px py : Nat) (g : Grid) : Grid :=
  fun y x => if inClearance px py y x then CellState.Empty else g y x

/-- Cell variant written for the moving player
(`if player_index == 0 { Player1Cell } else { Player2Cell }`). -/
def slotCell (player_index : Nat) : CellState :=
  if player_index = 0 then CellState.Player1Cell else CellState.Player2Cell

/-- `GameState::generate_map` (main.rs lines 69-130), parameterised by the two
sampled noise fields: reset to `Empty`, stamp border walls, water pass, stone
pass, clear each player's surroundings, then re-stamp `players[0]` and
`players[1]`. -/
def generate_map (water stone : Nat → Nat → Bool) (s : GameState) : GameState :=
  let g1 := stampWalls (fun _ _ => CellState.Empty)
  let g2 := waterPass water g1
  let g3 := stonePass stone g2
  let g4 := s.players.foldl (fun g p => clearAround p.x p.y g) g3
  let g5 := setCell g4 (getPlayer s 0).y (getPlayer s 0).x CellState.Player1Cell
  let g6 := setCell g5 (getPlayer s 1).y (getPlayer s 1).x CellState.Player2Cell
  { s with grid := g6 }

def initItems : List Item :=
  [⟨1, "Stone", 0⟩, ⟨2, "Wood", 0⟩]

/-- `GameState::new` (main.rs lines 133-161). -/
def GameState.new (water stone : Nat → Nat → Bool) : GameState :=
  generate_map water stone
    { players :=
        [⟨1, 2, 2, initItems⟩,
         ⟨2, GAME_WIDTH - 3, GAME_HEIGHT - 3, initItems⟩],
      grid := fun _ _ => CellState.Empty,
      debug_log := [],
      debug_panel_enabled := false }

/-- Resets `inventory[0].item_count` to 0; on an empty inventory the Rust code
would panic, which the checked variant accounts for. -/
def resetStone (p : Player) : Player :=
  { p with
    inventory :=
      match p.inventory with
      | [] => []
      | it :: rest => { it with item_count := 0 } :: rest }

/-- `GameState::regenerate_game_state` (main.rs lines 164-171). -/
def regenerate_game_state (water stone : Nat → Nat → Bool) (s : GameState) : GameState :=
  generate_map water stone { s with players := s.players.map resetStone }

/-- Increment of `inventory[0].item_count` in the `Stone` arm of
`move_player`. -/
def incStone (p : Player) : Player :=
  { p with
    inventory :=
      match p.inventory with
      | [] => []
      | it :: rest => { it with item_count := it.item_count + 1 } :: rest }

def collectMsg (player_index total : Nat) : String :=
  "Player " ++ toString (player_index + 1) ++ " collected a stone. Total: "
    ++ toString total

/-- `GameState::move_player` (main.rs lines 240-276). -/
def move_player (dx dy : Int) (player_index : Nat) (s : GameState) : GameState :=
  let p := getPlayer s player_index
  let new_x := usizeCast ((p.x : Int) + dx)
  let new_y := usizeCast ((p.y : Int) + dy)
  if 0 < new_x ∧ 0 < new_y ∧ new_x < GAME_WIDTH - 1 ∧ new_y < GAME_HEIGHT - 1 then
    match s.grid new_y new_x with
    | CellState.Empty =>
        let s1 := { s with grid := setCell s.grid p.y p.x CellState.Empty }
        let s2 := { s1 with
                    players := s1.players.set player_index { p with x := new_x, y := new_y } }
        { s2 with grid := setCell s2.grid new_y new_x (slotCell player_index) }
    | CellState.Stone =>
        let s1 := { s with players := s.players.set player_index (incStone p) }
        let s2 := { s1 with grid := setCell s1.grid new_y new_x CellState.Empty }
        let s3 := { s2 with grid := setCell s2.grid p.y p.x CellState.Empty }
        let s4 := { s3 with
                    players := s3.players.set player_index
                      { incStone p with x := new_x, y := new_y } }
        let s5 := { s4 with grid := setCell s4.grid new_y new_x (slotCell player_index) }
        log_debug_message s5 (collectMsg player_index (incStone p).stoneCount)
    | _ => s
  else s

def oobMsg (tx ty : Nat) : String :=
  "Out of bounds: (" ++ toString tx ++ ", " ++ toString ty ++ ")"

def notEmptyMsg (tx ty : Nat) : String :=
  "Cannot place stone: Cell not empty at (" ++ toString tx ++ ", " ++ toString ty ++ ")"

def noStonesMsg (player_index : Nat) : String :=
  "Player " ++ toString (player_index + 1) ++ " has no stones to use."

def placedMsg (player_index tx ty : Nat) : String :=
  "Player " ++ toString (player_index + 1) ++ " placed stone at ("
    ++ toString tx ++ ", " ++ toString ty ++ ")."

def notAdjMsg (tx ty player_index : Nat) : String :=
  "Placement at (" ++ toString tx ++ ", " ++ toString ty
    ++ ") is not adjacent to Player " ++ toString (player_index + 1) ++ "."

/-- Decrement of `inventory[0].item_count` in the success arm of
`place_stone`; only reached when the counter is positive. -/
def decStone (p : Player) : Player :=
  { p with
    inventory :=
      match p.inventory with
      | [] => []
      | it :: rest => { it with item_count := it.item_count - 1 } :: rest }

/-- `GameState::place_stone` (main.rs lines 278-315).  The adjacency test
`(tx as isize - x as isize).abs() <= 1` is reached only after the bounds
check, so both operands fit in `isize` and the `Int` subtraction is exact. -/
def place_stone (tx ty : Nat) (player_index : Nat) (s : GameState) : GameState :=
  let x := (getPlayer s player_index).x
  let y := (getPlayer s player_index).y
  if GAME_WIDTH ≤ tx ∨ GAME_HEIGHT ≤ ty then
    log_debug_message s (oobMsg tx ty)
  else if s.grid ty tx ≠ CellState.Empty then
    log_debug_message s (notEmptyMsg tx ty)
  else if (getPlayer s player_index).stoneCount = 0 then
    log_debug_message s (noStonesMsg player_index)
  else if ((tx : Int) - (x : Int)).natAbs ≤ 1 ∧ ((ty : Int) - (y : Int)).natAbs ≤ 1 then
    let s1 := { s with grid := setCell s.grid ty tx CellState.Stone }
    let s2 := { s1 with
                players := s1.players.set player_index (decStone (getPlayer s player_index)) }
    log_debug_message s2 (placedMsg player_index tx ty)
  else
    log_debug_message s (notAdjMsg tx ty player_index)

/-- Debug-panel toggle (main.rs line 353). -/
def toggle_panel (s : GameState) : GameState :=
  { s with debug_panel_enabled := !s.debug_panel_enabled }

/-- The four unit directions produced by the key bindings in `handle_input`
(main.rs lines 174-237). -/
inductive Dir where
  | up
  | down
  | left
  | right
deriving DecidableEq, Repr

def Dir.dx : Dir → Int
  | .left => -1
  | .right => 1
  | .up => 0
  | .down => 0

def Dir.dy : Dir → Int
  | .up => -1
  | .down => 1
  | .left => 0
  | .right => 0

/-- Public commands of the state engine, as issued by the run loop and
`handle_input`: the player index is always 0 or 1 and movement deltas are unit
directions.  Each `regen` carries the freshly sampled noise fields. -/
inductive Op where
  | move (d : Dir) (player_index : Fin 2)
  | place (tx ty : Nat) (player_index : Fin 2)
  | regen (water stone : Nat → Nat → Bool)
  | logMsg (message : String)
  | clearLog
  | togglePanel

def applyOp (s : GameState) : Op → GameState
  | .move d pi => move_player d.dx d.dy pi.val s
  | .place tx ty pi => place_stone tx ty pi.val s
  | .regen water stone => regenerate_game_state water stone s
  | .logMsg m => log_debug_message s m
  | .clearLog => clear_debug_log s
  | .togglePanel => toggle_panel s

def runOps (s : GameState) (ops : List Op) : GameState :=
  ops.foldl applyOp s

/-- States reachable from `GameState::new` by the public command surface. -/
def Reachable (s : GameState) : Prop :=
  ∃ (water stone : Nat → Nat → Bool) (ops : List Op),
    s = runOps (GameState.new water stone) ops

/-! ### Invariant definitions -/

/-- Structure of the player list in every reachable state: exactly the two
players built by `GameState::new`, with ids 1 and 2 and a two-slot inventory
whose first entry is the "Stone" counter and second the "Wood" counter. -/
def PlayersShape (s : GameState) : Prop :=
  ∃ sc0 wc0 sc1 wc1 x0 y0 x1 y1 : Nat,
    s.players =
      [⟨1, x0, y0, [⟨1, "Stone", sc0⟩, ⟨2, "Wood", wc0⟩]⟩,
       ⟨2, x1, y1, [⟨1, "Stone", sc1⟩, ⟨2, "Wood", wc1⟩]⟩]

/-- Position inside the open interior `1..=GAME_WIDTH-2 × 1..=GAME_HEIGHT-2`. -/
def interiorPos (x y : Nat) : Prop :=
  1 ≤ x ∧ x ≤ GAME_WIDTH - 2 ∧ 1 ≤ y ∧ y ≤ GAME_HEIGHT - 2

instance (x y : Nat) : Decidable (interiorPos x y) := by
  unfold interiorPos; infer_instance

/-- The cells bearing an `ActorSlot` variant are exactly the current player
positions (each player's cell holding its own variant), and the two players
occupy distinct coordinates. -/
def SlotInvariant (s : GameState) : Prop :=
  ((getPlayer s 0).x ≠ (getPlayer s 1).x ∨ (getPlayer s 0).y ≠ (getPlayer s 1).y) ∧
  ∀ y x, y < GAME_HEIGHT → x < GAME_WIDTH →
    (s.grid y x = CellState.Player1Cell ↔ (y = (getPlayer s 0).y ∧ x = (getPlayer s 0).x)) ∧
    (s.grid y x = CellState.Player2Cell ↔ (y = (getPlayer s 1).y ∧ x = (getPlayer s 1).x))

def gridDomain : Finset (Nat × Nat) :=
  Finset.range GAME_HEIGHT ×ˢ Finset.range GAME_WIDTH

/-- Number of `Stone` cells on the grid. -/
def stoneCells (g : Grid) : Nat :=
  (gridDomain.filter (fun c => g c.1 c.2 = CellState.Stone)).card

/-- Total stone in play: both players' counters plus the stones on the map.
Movement and placement conserve it, so the counters can never overflow. -/
def phi (s : GameState) : Nat :=
  (getPlayer s 0).stoneCount + (getPlayer s 1).stoneCount + stoneCells s.grid

/-- Master invariant of reachable states. -/
def Inv (s : GameState) : Prop :=
  PlayersShape s ∧
  interiorPos (getPlayer s 0).x (getPlayer s 0).y ∧
  interiorPos (getPlayer s 1).x (getPlayer s 1).y ∧
  SlotInvariant s ∧
  s.debug_log.length ≤ 10 ∧
  phi s ≤ 1800

/-! ### Basic lemmas -/

lemma setCell_self (g : Grid) (y x : Nat) (v : CellState) : setCell g y x v y x = v := by
  simp [setCell]

lemma setCell_ne (g : Grid) (y x : Nat) (v : CellState) {y' x' : Nat}
    (h : ¬ (y' = y ∧ x' = x)) : setCell g y x v y' x' = g y' x' := by
  simp only [setCell, if_neg h]

lemma logList_length_le (l : List String) (m : String) (h : l.length ≤ 10) :
    (logList l m).length ≤ 10 := by
  unfold logList
  split <;> simp <;> omega

lemma stoneCells_le (g : Grid) : stoneCells g ≤ 1800 := by
  have h := Finset.card_filter_le gridDomain (fun c => g c.1 c.2 = CellState.Stone)
  have hcard : gridDomain.card = 1800 := by
    rw [gridDomain, Finset.card_product]
    simp [GAME_HEIGHT, GAME_WIDTH]
  unfold stoneCells
  omega

lemma stoneCells_setCell (g : Grid) (y x : Nat) (v : CellState)
    (hy : y < GAME_HEIGHT) (hx : x < GAME_WIDTH) :
    stoneCells (setCell g y x v) + (if g y x = CellState.Stone then 1 else 0)
      = stoneCells g + (if v = CellState.Stone then 1 else 0) := by
  classical
  have hmem : ((y, x) : Nat × Nat) ∈ gridDomain := by
    simp [gridDomain, Finset.mem_product, hy, hx]
  have hsplit : ∀ f : Grid,
      (gridDomain.filter (fun c => f c.1 c.2 = CellState.Stone)).card
        = (if f y x = CellState.Stone then 1 else 0)
          + ((gridDomain.erase (y, x)).filter (fun c => f c.1 c.2 = CellState.Stone)).card := by
    intro f
    conv_lhs => rw [← Finset.insert_erase hmem]
    rw [Finset.filter_insert]
    by_cases hf : f y x = CellState.Stone
    · have hnm : ((y, x) : Nat × Nat)
          ∉ (gridDomain.erase (y, x)).filter (fun c => f c.1 c.2 = CellState.Stone) :=
        fun hmem2 => Finset.not_mem_erase _ _ (Finset.mem_of_mem_filter _ hmem2)
      rw [if_pos hf, if_pos hf, Finset.card_insert_of_not_mem hnm]
      omega
    · rw [if_neg hf, if_neg hf]
      omega
  have hcongr :
      (gridDomain.erase (y, x)).filter (fun c => setCell g y x v c.1 c.2 = CellState.Stone)
        = (gridDomain.erase (y, x)).filter (fun c => g c.1 c.2 = CellState.Stone) := by
    apply Finset.filter_congr
    intro c hc
    have hne : c ≠ (y, x) := Finset.ne_of_mem_erase hc
    have hnc : ¬ (c.1 = y ∧ c.2 = x) := by
      intro hca
      exact hne (Prod.ext hca.1 hca.2)
    simp [setCell_ne _ _ _ _ hnc]
  have h1 := hsplit (setCell g y x v)
  have h2 := hsplit g
  rw [hcongr, setCell_self] at h1
  unfold stoneCells
  omega

/-! ### Lemmas about the generated grid -/

lemma clearAround_eq_of_not (px py : Nat) (g : Grid) (y x : Nat)
    (h : ¬ inClearance px py y x) : clearAround px py g y x = g y x := by
  simp [clearAround, h]

lemma clearAround_empty_pres (px py : Nat) (g : Grid) (y x : Nat)
    (h : g y x = CellState.Empty) : clearAround px py g y x = CellState.Empty := by
  unfold clearAround
  split <;> simp [h]

lemma clearFold_eq_of_not (ps : List Player) (g : Grid) (y x : Nat)
    (h : ∀ p ∈ ps, ¬ inClearance p.x p.y y x) :
    (ps.foldl (fun g p => clearAround p.x p.y g) g) y x = g y x := by
  induction ps generalizing g with
  | nil => rfl
  | cons p ps ih =>
      rw [List.foldl_cons]
      rw [ih _ (fun q hq => h q (List.mem_cons_of_mem _ hq))]
      exact clearAround_eq_of_not _ _ _ _ _ (h p (List.mem_cons_self _ _))

lemma clearFold_empty_pres (ps : List Player) (g : Grid) (y x : Nat)
    (h : g y x = CellState.Empty) :
    (ps.foldl (fun g p => clearAround p.x p.y g) g) y x = CellState.Empty := by
  induction ps generalizing g with
  | nil => exact h
  | cons p ps ih => exact ih _ (clearAround_empty_pres _ _ _ _ _ h)

lemma clearFold_empty_of_mem (ps : List Player) (g : Grid) (y x : Nat)
    (p : Player) (hp : p ∈ ps) (h : inClearance p.x p.y y x) :
    (ps.foldl (fun g p => clearAround p.x p.y g) g) y x = CellState.Empty := by
  induction ps generalizing g with
  | nil => cases hp
  | cons q ps ih =>
      rw [List.foldl_cons]
      rcases List.mem_cons.mp hp with rfl | hmem
      · exact clearFold_empty_pres _ _ _ _ (by simp [clearAround, h])
      · exact ih _ hmem

lemma clearFold_eq_or (ps : List Player) (g : Grid) (y x : Nat) :
    (ps.foldl (fun g p => clearAround p.x p.y g) g) y x = CellState.Empty
      ∨ (ps.foldl (fun g p => clearAround p.x p.y g) g) y x = g y x := by
  induction ps generalizing g with
  | nil => right; rfl
  | cons p ps ih =>
      rw [List.foldl_cons]
      rcases ih (clearAround p.x p.y g) with h | h
      · left; exact h
      · by_cases hc : inClearance p.x p.y y x
        · left; rw [h]; simp [clearAround, hc]
        · right; rw [h, clearAround_eq_of_not _ _ _ _ _ hc]

/-- Shorthand for the grid after the walls, water and stone passes. -/
def baseGrid (water stone : Nat → Nat → Bool) : Grid :=
  stonePass stone (waterPass water (stampWalls (fun _ _ => CellState.Empty)))

lemma baseGrid_cases (water stone : Nat → Nat → Bool) (y x : Nat) :
    baseGrid water stone y x = CellState.Empty
    ∨ baseGrid water stone y x = CellState.Wall
    ∨ baseGrid water stone y x = CellState.Water
    ∨ baseGrid water stone y x = CellState.Stone := by
  unfold baseGrid stonePass waterPass stampWalls
  split
  · simp
  · split
    · simp
    · split <;> simp

lemma generate_map_grid_eq (water stone : Nat → Nat → Bool) (s : GameState) :
    (generate_map water stone s).grid
      = setCell
          (setCell (s.players.foldl (fun g p => clearAround p.x p.y g) (baseGrid water stone))
            (getPlayer s 0).y (getPlayer s 0).x CellState.Player1Cell)
          (getPlayer s 1).y (getPlayer s 1).x CellState.Player2Cell := rfl

lemma generate_map_players (water stone : Nat → Nat → Bool) (s : GameState) :
    (generate_map water stone s).players = s.players := rfl

lemma generate_map_getPlayer (water stone : Nat → Nat → Bool) (s : GameState) (i : Nat) :
    getPlayer (generate_map water stone s) i = getPlayer s i := rfl

lemma generate_map_log (water stone : Nat → Nat → Bool) (s : GameState) :
    (generate_map water stone s).debug_log = s.debug_log := rfl

lemma generate_map_flag (water stone : Nat → Nat → Bool) (s : GameState) :
    (generate_map water stone s).debug_panel_enabled = s.debug_panel_enabled := rfl

lemma clearFold_ne_slot (ps : List Player) (water stone : Nat → Nat → Bool) (y x : Nat) :
    (ps.foldl (fun g p => clearAround p.x p.y g) (baseGrid water stone)) y x
        ≠ CellState.Player1Cell
    ∧ (ps.foldl (fun g p => clearAround p.x p.y g) (baseGrid water stone)) y x
        ≠ CellState.Player2Cell := by
  rcases clearFold_eq_or ps (baseGrid water stone) y x with h | h
  · rw [h]; exact ⟨by simp, by simp⟩
  · rw [h]
    rcases baseGrid_cases water stone y x with h2 | h2 | h2 | h2 <;> rw [h2] <;>
      exact ⟨by simp, by simp⟩

lemma generate_map_slotInv (water stone : Nat → Nat → Bool) (s : GameState)
    (hne : (getPlayer s 0).x ≠ (getPlayer s 1).x ∨ (getPlayer s 0).y ≠ (getPlayer s 1).y) :
    SlotInvariant (generate_map water stone s) := by
  constructor
  · simpa [generate_map_getPlayer] using hne
  · intro y x hy hx
    rw [generate_map_getPlayer, generate_map_getPlayer, generate_map_grid_eq]
    by_cases h2 : y = (getPlayer s 1).y ∧ x = (getPlayer s 1).x
    · obtain ⟨rfl, rfl⟩ := h2
      rw [setCell_self]
      constructor
      · constructor
        · intro hcontr; cases hcontr
        · intro hcontr
          rcases hne with hne | hne
          · exact absurd hcontr.2.symm hne
          · exact absurd hcontr.1.symm hne
      · simp
    · rw [setCell_ne _ _ _ _ h2]
      by_cases h1 : y = (getPlayer s 0).y ∧ x = (getPlayer s 0).x
      · obtain ⟨rfl, rfl⟩ := h1
        rw [setCell_self]
        refine ⟨by simp, ?_⟩
        constructor
        · intro hcontr; cases hcontr
        · intro hcontr; exact absurd ⟨hcontr.1, hcontr.2⟩ h2
      · rw [setCell_ne _ _ _ _ h1]
        have hns := clearFold_ne_slot s.players water stone y x
        constructor
        · exact ⟨fun h => absurd h hns.1, fun h => absurd h h1⟩
        · exact ⟨fun h => absurd h hns.2, fun h => absurd h h2⟩

/-! ### Branch shape lemmas for `move_player` and `place_stone` -/

lemma move_player_out (dx dy : Int) (pi : Nat) (s : GameState)
    (h : ¬ (0 < usizeCast (((getPlayer s pi).x : Int) + dx)
          ∧ 0 < usizeCast (((getPlayer s pi).y : Int) + dy)
          ∧ usizeCast (((getPlayer s pi).x : Int) + dx) < GAME_WIDTH - 1
          ∧ usizeCast (((getPlayer s pi).y : Int) + dy) < GAME_HEIGHT - 1)) :
    move_player dx dy pi s = s := by
  simp only [move_player]
  rw [if_neg h]

lemma move_player_blocked (dx dy : Int) (pi : Nat) (s : GameState)
    (h1 : s.grid (usizeCast (((getPlayer s pi).y : Int) + dy))
        (usizeCast (((getPlayer s pi).x : Int) + dx)) ≠ CellState.Empty)
    (h2 : s.grid (usizeCast (((getPlayer s pi).y : Int) + dy))
        (usizeCast (((getPlayer s pi).x : Int) + dx)) ≠ CellState.Stone) :
    move_player dx dy pi s = s := by
  simp only [move_player]
  split
  · cases hval : s.grid (usizeCast (((getPlayer s pi).y : Int) + dy))
        (usizeCast (((getPlayer s pi).x : Int) + dx)) with
    | Empty => exact absurd hval h1
    | Stone => exact absurd hval h2
    | Player1Cell => rfl
    | Player2Cell => rfl
    | Water => rfl
    | Wall => rfl
  · rfl

lemma move_player_empty_eq (dx dy : Int) (pi : Nat) (s : GameState)
    (hin : 0 < usizeCast (((getPlayer s pi).x : Int) + dx)
          ∧ 0 < usizeCast (((getPlayer s pi).y : Int) + dy)
          ∧ usizeCast (((getPlayer s pi).x : Int) + dx) < GAME_WIDTH - 1
          ∧ usizeCast (((getPlayer s pi).y : Int) + dy) < GAME_HEIGHT - 1)
    (hcell : s.grid (usizeCast (((getPlayer s pi).y : Int) + dy))
        (usizeCast (((getPlayer s pi).x : Int) + dx)) = CellState.Empty) :
    move_player dx dy pi s =
      { s with
        players := s.players.set pi
          { getPlayer s pi with
            x := usizeCast (((getPlayer s pi).x : Int) + dx),
            y := usizeCast (((getPlayer s pi).y : Int) + dy) },
        grid := setCell (setCell s.grid (getPlayer s pi).y (getPlayer s pi).x CellState.Empty)
          (usizeCast (((getPlayer s pi).y : Int) + dy))
          (usizeCast (((getPlayer s pi).x : Int) + dx)) (slotCell pi) } := by
  simp only [move_player]
  rw [if_pos hin, hcell]

lemma move_player_stone_eq (dx dy : Int) (pi : Nat) (s : GameState)
    (hin : 0 < usizeCast (((getPlayer s pi).x : Int) + dx)
          ∧ 0 < usizeCast (((getPlayer s pi).y : Int) + dy)
          ∧ usizeCast (((getPlayer s pi).x : Int) + dx) < GAME_WIDTH - 1
          ∧ usizeCast (((getPlayer s pi).y : Int) + dy) < GAME_HEIGHT - 1)
    (hcell : s.grid (usizeCast (((getPlayer s pi).y : Int) + dy))
        (usizeCast (((getPlayer s pi).x : Int) + dx)) = CellState.Stone) :
    move_player dx dy pi s =
      log_debug_message
        { s with
          players := (s.players.set pi (incStone (getPlayer s pi))).set pi
            { incStone (getPlayer s pi) with
              x := usizeCast (((getPlayer s pi).x : Int) + dx),
              y := usizeCast (((getPlayer s pi).y : Int) + dy) },
          grid := setCell
            (setCell
              (setCell s.grid (usizeCast (((getPlayer s pi).y : Int) + dy))
                (usizeCast (((getPlayer s pi).x : Int) + dx)) CellState.Empty)
              (getPlayer s pi).y (getPlayer s pi).x CellState.Empty)
            (usizeCast (((getPlayer s pi).y : Int) + dy))
            (usizeCast (((getPlayer s pi).x : Int) + dx)) (slotCell pi) }
        (collectMsg pi (incStone (getPlayer s pi)).stoneCount) := by
  simp only [move_player]
  rw [if_pos hin, hcell]

lemma place_stone_oob_eq (tx ty pi : Nat) (s : GameState)
    (h : GAME_WIDTH ≤ tx ∨ GAME_HEIGHT ≤ ty) :
    place_stone tx ty pi s = log_debug_message s (oobMsg tx ty) := by
  simp only [place_stone]
  rw [if_pos h]

lemma place_stone_notEmpty_eq (tx ty pi : Nat) (s : GameState)
    (h1 : ¬ (GAME_WIDTH ≤ tx ∨ GAME_HEIGHT ≤ ty))
    (h2 : s.grid ty tx ≠ CellState.Empty) :
    place_stone tx ty pi s = log_debug_message s (notEmptyMsg tx ty) := by
  simp only [place_stone]
  rw [if_neg h1, if_pos h2]

lemma place_stone_noStones_eq (tx ty pi : Nat) (s : GameState)
    (h1 : ¬ (GAME_WIDTH ≤ tx ∨ GAME_HEIGHT ≤ ty))
    (h2 : s.grid ty tx = CellState.Empty)
    (h3 : (getPlayer s pi).stoneCount = 0) :
    place_stone tx ty pi s = log_debug_message s (noStonesMsg pi) := by
  simp only [place_stone]
  rw [if_neg h1, if_neg (not_not_intro h2), if_pos h3]

lemma place_stone_success_eq (tx ty pi : Nat) (s : GameState)
    (h1 : ¬ (GAME_WIDTH ≤ tx ∨ GAME_HEIGHT ≤ ty))
    (h2 : s.grid ty tx = CellState.Empty)
    (h3 : (getPlayer s pi).stoneCount ≠ 0)
    (h4 : ((tx : Int) - ((getPlayer s pi).x : Int)).natAbs ≤ 1
        ∧ ((ty : Int) - ((getPlayer s pi).y : Int)).natAbs ≤ 1) :
    place_stone tx ty pi s =
      log_debug_message
        { s with
          players := s.players.set pi (decStone (getPlayer s pi)),
          grid := setCell s.grid ty tx CellState.Stone }
        (placedMsg pi tx ty) := by
  simp only [place_stone]
  rw [if_neg h1, if_neg (not_not_intro h2), if_neg h3, if_pos h4]

lemma place_stone_notAdj_eq (tx ty pi : Nat) (s : GameState)
    (h1 : ¬ (GAME_WIDTH ≤ tx ∨ GAME_HEIGHT ≤ ty))
    (h2 : s.grid ty tx = CellState.Empty)
    (h3 : (getPlayer s pi).stoneCount ≠ 0)
    (h4 : ¬ (((tx : Int) - ((getPlayer s pi).x : Int)).natAbs ≤ 1
        ∧ ((ty : Int) - ((getPlayer s pi).y : Int)).natAbs ≤ 1)) :
    place_stone tx ty pi s = log_debug_message s (notAdjMsg tx ty pi) := by
  simp only [place_stone]
  rw [if_neg h1, if_neg (not_not_intro h2), if_neg h3, if_neg h4]

/-! ### Invariant preservation -/

lemma lt_H_of_lt_Hm1 {n : Nat} (h : n < GAME_HEIGHT - 1) : n < GAME_HEIGHT := by
  unfold GAME_HEIGHT at *; omega

lemma lt_W_of_lt_Wm1 {n : Nat} (h : n < GAME_WIDTH - 1) : n < GAME_WIDTH := by
  unfold GAME_WIDTH at *; omega

lemma interior_yH {x y : Nat} (h : interiorPos x y) : y < GAME_HEIGHT := by
  unfold interiorPos GAME_HEIGHT GAME_WIDTH at *; omega

lemma interior_xW {x y : Nat} (h : interiorPos x y) : x < GAME_WIDTH := by
  unfold interiorPos GAME_HEIGHT GAME_WIDTH at *; omega

lemma slotCell_zero : slotCell 0 = CellState.Player1Cell := rfl

lemma slotCell_one : slotCell 1 = CellState.Player2Cell := by simp [slotCell]

/-- Slot bookkeeping for a successful move: the mover's variant `A` moves from
`(oy, ox)` to `(ny, nx)` while the other player's variant `B` stays at
`(qy, qx)`. -/
lemma slotIff_move (g : Grid) (A B : CellState) (oy ox ny nx qy qx : Nat)
    (hAB : A ≠ B) (hAe : A ≠ CellState.Empty) (hBe : B ≠ CellState.Empty)
    (hno : ¬ (ny = oy ∧ nx = ox))
    (hnq : ¬ (ny = qy ∧ nx = qx))
    (hoq : ¬ (oy = qy ∧ ox = qx))
    (hg : ∀ y x, y < GAME_HEIGHT → x < GAME_WIDTH →
      (g y x = A ↔ (y = oy ∧ x = ox)) ∧ (g y x = B ↔ (y = qy ∧ x = qx))) :
    ∀ y x, y < GAME_HEIGHT → x < GAME_WIDTH →
      ((setCell (setCell g oy ox CellState.Empty) ny nx A) y x = A ↔ (y = ny ∧ x = nx)) ∧
      ((setCell (setCell g oy ox CellState.Empty) ny nx A) y x = B ↔ (y = qy ∧ x = qx)) := by
  intro y x hy hx
  by_cases hA : y = ny ∧ x = nx
  · obtain ⟨rfl, rfl⟩ := hA
    rw [setCell_self]
    exact ⟨by simp, ⟨fun h => absurd h hAB, fun h => absurd ⟨h.1, h.2⟩ hnq⟩⟩
  · rw [setCell_ne _ _ _ _ hA]
    by_cases hB : y = oy ∧ x = ox
    · obtain ⟨rfl, rfl⟩ := hB
      rw [setCell_self]
      exact ⟨⟨fun h => absurd h.symm hAe, fun h => absurd h hA⟩,
             ⟨fun h => absurd h.symm hBe, fun h => absurd h hoq⟩⟩
    · rw [setCell_ne _ _ _ _ hB]
      have hgx := hg y x hy hx
      exact ⟨⟨fun h => absurd (hgx.1.mp h) hB, fun h => absurd h hA⟩, hgx.2⟩

/-- The extra write `grid[new] = Empty` in the `Stone` arm is overwritten by
the final `grid[new] = slot`, so the resulting grid collapses to the
`Empty`-arm shape. -/
lemma setCell_collapse (g : Grid) (oy ox ny nx : Nat) (A : CellState) :
    setCell (setCell (setCell g ny nx CellState.Empty) oy ox CellState.Empty) ny nx A
      = setCell (setCell g oy ox CellState.Empty) ny nx A := by
  funext y x
  by_cases h1 : y = ny ∧ x = nx
  · obtain ⟨rfl, rfl⟩ := h1
    rw [setCell_self, setCell_self]
  · rw [setCell_ne _ _ _ _ h1, setCell_ne _ _ _ _ h1]
    by_cases h2 : y = oy ∧ x = ox
    · obtain ⟨rfl, rfl⟩ := h2
      rw [setCell_self, setCell_self]
    · rw [setCell_ne _ _ _ _ h2, setCell_ne _ _ _ _ h2, setCell_ne _ _ _ _ h1]

lemma new_getPlayer_zero (water stone : Nat → Nat → Bool) :
    getPlayer (GameState.new water stone) 0 = ⟨1, 2, 2, initItems⟩ := rfl

lemma new_getPlayer_one (water stone : Nat → Nat → Bool) :
    getPlayer (GameState.new water stone) 1
      = ⟨2, GAME_WIDTH - 3, GAME_HEIGHT - 3, initItems⟩ := rfl

/-- The `Stone` arm of `move_player` written as one record: the double write
to the candidate cell is collapsed and the log update is exposed. -/
lemma move_player_stone_collapsed (dx dy : Int) (pi : Nat) (s : GameState)
    (hin : 0 < usizeCast (((getPlayer s pi).x : Int) + dx)
          ∧ 0 < usizeCast (((getPlayer s pi).y : Int) + dy)
          ∧ usizeCast (((getPlayer s pi).x : Int) + dx) < GAME_WIDTH - 1
          ∧ usizeCast (((getPlayer s pi).y : Int) + dy) < GAME_HEIGHT - 1)
    (hcell : s.grid (usizeCast (((getPlayer s pi).y : Int) + dy))
        (usizeCast (((getPlayer s pi).x : Int) + dx)) = CellState.Stone) :
    move_player dx dy pi s =
      { players := (s.players.set pi (incStone (getPlayer s pi))).set pi
          { incStone (getPlayer s pi) with
            x := usizeCast (((getPlayer s pi).x : Int) + dx),
            y := usizeCast (((getPlayer s pi).y : Int) + dy) },
        grid := setCell (setCell s.grid (getPlayer s pi).y (getPlayer s pi).x CellState.Empty)
          (usizeCast (((getPlayer s pi).y : Int) + dy))
          (usizeCast (((getPlayer s pi).x : Int) + dx)) (slotCell pi),
        debug_log := logList s.debug_log (collectMsg pi (incStone (getPlayer s pi)).stoneCount),
        debug_panel_enabled := s.debug_panel_enabled } := by
  rw [move_player_stone_eq dx dy pi s hin hcell]
  simp only [log_debug_message]
  rw [setCell_collapse]

lemma inv_new (water stone : Nat → Nat → Bool) : Inv (GameState.new water stone) := by
  refine ⟨⟨0, 0, 0, 0, 2, 2, GAME_WIDTH - 3, GAME_HEIGHT - 3, rfl⟩, ?_, ?_, ?_, ?_, ?_⟩
  · rw [new_getPlayer_zero]
    decide
  · rw [new_getPlayer_one]
    decide
  · exact generate_map_slotInv water stone _ (by decide)
  · have h : (GameState.new water stone).debug_log = [] := rfl
    rw [h]
    simp
  · have h0 : (getPlayer (GameState.new water stone) 0).stoneCount = 0 := rfl
    have h1 : (getPlayer (GameState.new water stone) 1).stoneCount = 0 := rfl
    unfold phi
    rw [h0, h1]
    simpa using stoneCells_le (GameState.new water stone).grid

lemma inv_log (m : String) (s : GameState) (hInv : Inv s) : Inv (log_debug_message s m) := by
  obtain ⟨hshape, hint0, hint1, hslot, hlog, hphi⟩ := hInv
  exact ⟨hshape, hint0, hint1, hslot, logList_length_le _ _ hlog, hphi⟩

lemma inv_clear (s : GameState) (hInv : Inv s) : Inv (clear_debug_log s) := by
  obtain ⟨hshape, hint0, hint1, hslot, hlog, hphi⟩ := hInv
  exact ⟨hshape, hint0, hint1, hslot, by simp [clear_debug_log], hphi⟩

lemma inv_toggle (s : GameState) (hInv : Inv s) : Inv (toggle_panel s) := by
  obtain ⟨hshape, hint0, hint1, hslot, hlog, hphi⟩ := hInv
  exact ⟨hshape, hint0, hint1, hslot, hlog, hphi⟩

lemma inv_regen (water stone : Nat → Nat → Bool) (s : GameState) (hInv : Inv s) :
    Inv (regenerate_game_state water stone s) := by
  obtain ⟨⟨sc0, wc0, sc1, wc1, x0, y0, x1, y1, hps⟩, hint0, hint1, hslot, hlog, hphi⟩ := hInv
  have hA : getPlayer s 0 = ⟨1, x0, y0, [⟨1, "Stone", sc0⟩, ⟨2, "Wood", wc0⟩]⟩ := by
    simp [getPlayer, hps]
  have hB : getPlayer s 1 = ⟨2, x1, y1, [⟨1, "Stone", sc1⟩, ⟨2, "Wood", wc1⟩]⟩ := by
    simp [getPlayer, hps]
  have hps' : s.players.map resetStone
      = [⟨1, x0, y0, [⟨1, "Stone", 0⟩, ⟨2, "Wood", wc0⟩]⟩,
         ⟨2, x1, y1, [⟨1, "Stone", 0⟩, ⟨2, "Wood", wc1⟩]⟩] := by
    simp [hps, resetStone]
  have hgp0 : getPlayer (regenerate_game_state water stone s) 0
      = ⟨1, x0, y0, [⟨1, "Stone", 0⟩, ⟨2, "Wood", wc0⟩]⟩ := by
    unfold regenerate_game_state
    rw [generate_map_getPlayer]
    show (s.players.map resetStone).getD 0 defaultPlayer = _
    rw [hps']
    rfl
  have hgp1 : getPlayer (regenerate_game_state water stone s) 1
      = ⟨2, x1, y1, [⟨1, "Stone", 0⟩, ⟨2, "Wood", wc1⟩]⟩ := by
    unfold regenerate_game_state
    rw [generate_map_getPlayer]
    show (s.players.map resetStone).getD 1 defaultPlayer = _
    rw [hps']
    rfl
  refine ⟨⟨0, wc0, 0, wc1, x0, y0, x1, y1, ?_⟩, ?_, ?_, ?_, ?_, ?_⟩
  · show (generate_map water stone _).players = _
    rw [generate_map_players]
    show s.players.map resetStone = _
    exact hps'
  · rw [hgp0]
    rw [hA] at hint0
    exact hint0
  · rw [hgp1]
    rw [hB] at hint1
    exact hint1
  · refine generate_map_slotInv water stone _ ?_
    have hd := hslot.1
    rw [hA, hB] at hd
    have e0 : getPlayer ({ s with players := s.players.map resetStone } : GameState) 0
        = ⟨1, x0, y0, [⟨1, "Stone", 0⟩, ⟨2, "Wood", wc0⟩]⟩ := by
      show (s.players.map resetStone).getD 0 defaultPlayer = _
      rw [hps']
      rfl
    have e1 : getPlayer ({ s with players := s.players.map resetStone } : GameState) 1
        = ⟨2, x1, y1, [⟨1, "Stone", 0⟩, ⟨2, "Wood", wc1⟩]⟩ := by
      show (s.players.map resetStone).getD 1 defaultPlayer = _
      rw [hps']
      rfl
    rw [e0, e1]
    exact hd
  · show ({ s with players := s.players.map resetStone } : GameState).debug_log.length ≤ 10
    exact hlog
  · unfold phi
    rw [hgp0, hgp1]
    have := stoneCells_le (regenerate_game_state water stone s).grid
    simp only [Player.stoneCount, List.getD_cons_zero]
    omega

lemma interior_of_bounds {nx ny : Nat} (h1 : 0 < nx) (h2 : 0 < ny)
    (h3 : nx < GAME_WIDTH - 1) (h4 : ny < GAME_HEIGHT - 1) : interiorPos nx ny := by
  unfold interiorPos GAME_WIDTH GAME_HEIGHT at *
  omega

lemma inv_move (dx dy : Int) (pi : Nat) (hpi : pi < 2) (s : GameState) (hInv : Inv s) :
    Inv (move_player dx dy pi s) := by
  have hInv' := hInv
  obtain ⟨⟨sc0, wc0, sc1, wc1, x0, y0, x1, y1, hps⟩, hint0, hint1, hslot, hlog, hphi⟩ := hInv
  have hA : getPlayer s 0 = ⟨1, x0, y0, [⟨1, "Stone", sc0⟩, ⟨2, "Wood", wc0⟩]⟩ := by
    simp [getPlayer, hps]
  have hB : getPlayer s 1 = ⟨2, x1, y1, [⟨1, "Stone", sc1⟩, ⟨2, "Wood", wc1⟩]⟩ := by
    simp [getPlayer, hps]
  rw [hA] at hint0
  rw [hB] at hint1
  have hy0H : y0 < GAME_HEIGHT := interior_yH hint0
  have hx0W : x0 < GAME_WIDTH := interior_xW hint0
  have hy1H : y1 < GAME_HEIGHT := interior_yH hint1
  have hx1W : x1 < GAME_WIDTH := interior_xW hint1
  have hd := hslot.1
  rw [hA, hB] at hd
  have hiff : ∀ y x, y < GAME_HEIGHT → x < GAME_WIDTH →
      (s.grid y x = CellState.Player1Cell ↔ (y = y0 ∧ x = x0)) ∧
      (s.grid y x = CellState.Player2Cell ↔ (y = y1 ∧ x = x1)) := by
    intro y x hy hx
    have h := hslot.2 y x hy hx
    rw [hA, hB] at h
    exact h
  have hg0 : s.grid y0 x0 = CellState.Player1Cell := (hiff y0 x0 hy0H hx0W).1.mpr ⟨rfl, rfl⟩
  have hg1 : s.grid y1 x1 = CellState.Player2Cell := (hiff y1 x1 hy1H hx1W).2.mpr ⟨rfl, rfl⟩
  have hoq : ¬ (y0 = y1 ∧ x0 = x1) := by
    intro h
    rcases hd with hd | hd
    · exact hd h.2
    · exact hd h.1
  have hphi' : sc0 + sc1 + stoneCells s.grid ≤ 1800 := by
    unfold phi at hphi
    rw [hA, hB] at hphi
    simpa [Player.stoneCount, List.getD_cons_zero] using hphi
  interval_cases pi
  · -- player 0 moves
    by_cases hin : (0 < usizeCast (((getPlayer s 0).x : Int) + dx)
        ∧ 0 < usizeCast (((getPlayer s 0).y : Int) + dy)
        ∧ usizeCast (((getPlayer s 0).x : Int) + dx) < GAME_WIDTH - 1
        ∧ usizeCast (((getPlayer s 0).y : Int) + dy) < GAME_HEIGHT - 1)
    case neg =>
      rw [move_player_out dx dy 0 s hin]
      exact hInv'
    case pos =>
    set NX := usizeCast (((getPlayer s 0).x : Int) + dx) with hNX
    set NY := usizeCast (((getPlayer s 0).y : Int) + dy) with hNY
    have hNXW : NX < GAME_WIDTH := lt_W_of_lt_Wm1 hin.2.2.1
    have hNYH : NY < GAME_HEIGHT := lt_H_of_lt_Hm1 hin.2.2.2
    cases hval : s.grid NY NX with
    | Empty =>
        rw [move_player_empty_eq dx dy 0 s hin hval]
        have hnold : ¬ (NY = y0 ∧ NX = x0) := by
          intro hcontr
          rw [hcontr.1, hcontr.2, hg0] at hval
          cases hval
        have hnoth : ¬ (NY = y1 ∧ NX = x1) := by
          intro hcontr
          rw [hcontr.1, hcontr.2, hg1] at hval
          cases hval
        have key0 : s.players.set 0 { getPlayer s 0 with x := NX, y := NY }
            = [⟨1, NX, NY, [⟨1, "Stone", sc0⟩, ⟨2, "Wood", wc0⟩]⟩,
               ⟨2, x1, y1, [⟨1, "Stone", sc1⟩, ⟨2, "Wood", wc1⟩]⟩] := by
          rw [hA, hps]
          rfl
        have hgp0' : (s.players.set 0 { getPlayer s 0 with x := NX, y := NY }).getD 0 defaultPlayer
            = ⟨1, NX, NY, [⟨1, "Stone", sc0⟩, ⟨2, "Wood", wc0⟩]⟩ := by
          rw [key0]
          rfl
        have hgp1' : (s.players.set 0 { getPlayer s 0 with x := NX, y := NY }).getD 1 defaultPlayer
            = ⟨2, x1, y1, [⟨1, "Stone", sc1⟩, ⟨2, "Wood", wc1⟩]⟩ := by
          rw [key0]
          rfl
        have hgrid : setCell (setCell s.grid (getPlayer s 0).y (getPlayer s 0).x CellState.Empty)
            NY NX (slotCell 0) = setCell (setCell s.grid y0 x0 CellState.Empty) NY NX
              CellState.Player1Cell := by
          rw [hA, slotCell_zero]
        refine ⟨⟨sc0, wc0, sc1, wc1, NX, NY, x1, y1, key0⟩, ?_, ?_, ⟨?_, ?_⟩, hlog, ?_⟩
        · show interiorPos ((s.players.set 0 _).getD 0 defaultPlayer).x
            ((s.players.set 0 _).getD 0 defaultPlayer).y
          rw [hgp0']
          exact interior_of_bounds hin.1 hin.2.1 hin.2.2.1 hin.2.2.2
        · show interiorPos ((s.players.set 0 _).getD 1 defaultPlayer).x
            ((s.players.set 0 _).getD 1 defaultPlayer).y
          rw [hgp1']
          exact hint1
        · show ((s.players.set 0 _).getD 0 defaultPlayer).x
              ≠ ((s.players.set 0 _).getD 1 defaultPlayer).x
            ∨ ((s.players.set 0 _).getD 0 defaultPlayer).y
              ≠ ((s.players.set 0 _).getD 1 defaultPlayer).y
          rw [hgp0', hgp1']
          show NX ≠ x1 ∨ NY ≠ y1
          by_cases hxx : NX = x1
          · right
            intro hyy
            exact hnoth ⟨hyy, hxx⟩
          · left
            exact hxx
        · intro y x hy hx
          show (_ = CellState.Player1Cell ↔ (y = ((s.players.set 0 _).getD 0 defaultPlayer).y
              ∧ x = ((s.players.set 0 _).getD 0 defaultPlayer).x))
            ∧ (_ = CellState.Player2Cell ↔ (y = ((s.players.set 0 _).getD 1 defaultPlayer).y
              ∧ x = ((s.players.set 0 _).getD 1 defaultPlayer).x))
          rw [hgp0', hgp1', hgrid]
          exact slotIff_move s.grid CellState.Player1Cell CellState.Player2Cell
            y0 x0 NY NX y1 x1 (by decide) (by decide) (by decide)
            hnold hnoth hoq hiff y x hy hx
        · unfold phi
          have hstep1 := stoneCells_setCell s.grid y0 x0 CellState.Empty hy0H hx0W
          rw [hg0] at hstep1
          simp only [reduceCtorEq, if_false] at hstep1
          have hmidval : setCell s.grid y0 x0 CellState.Empty NY NX = CellState.Empty := by
            rw [setCell_ne _ _ _ _ hnold]
            exact hval
          have hstep2 := stoneCells_setCell (setCell s.grid y0 x0 CellState.Empty) NY NX
            CellState.Player1Cell hNYH hNXW
          rw [hmidval] at hstep2
          simp only [reduceCtorEq, if_false] at hstep2
          show (((s.players.set 0 _).getD 0 defaultPlayer).stoneCount
              + ((s.players.set 0 _).getD 1 defaultPlayer).stoneCount
              + stoneCells (setCell (setCell s.grid (getPlayer s 0).y (getPlayer s 0).x
                  CellState.Empty) NY NX (slotCell 0))) ≤ 1800
          rw [hgp0', hgp1', hgrid]
          simp only [Player.stoneCount, List.getD_cons_zero]
          omega
    | Stone =>
        rw [move_player_stone_collapsed dx dy 0 s hin hval]
        have hnold : ¬ (NY = y0 ∧ NX = x0) := by
          intro hcontr
          rw [hcontr.1, hcontr.2, hg0] at hval
          cases hval
        have hnoth : ¬ (NY = y1 ∧ NX = x1) := by
          intro hcontr
          rw [hcontr.1, hcontr.2, hg1] at hval
          cases hval
        have hq : incStone (getPlayer s 0)
            = ⟨1, x0, y0, [⟨1, "Stone", sc0 + 1⟩, ⟨2, "Wood", wc0⟩]⟩ := by
          rw [hA]
          rfl
        have key0 : (s.players.set 0 (incStone (getPlayer s 0))).set 0
              { incStone (getPlayer s 0) with x := NX, y := NY }
            = [⟨1, NX, NY, [⟨1, "Stone", sc0 + 1⟩, ⟨2, "Wood", wc0⟩]⟩,
               ⟨2, x1, y1, [⟨1, "Stone", sc1⟩, ⟨2, "Wood", wc1⟩]⟩] := by
          rw [List.set_set, hq, hps]
          rfl
        have hgp0' : (((s.players.set 0 (incStone (getPlayer s 0))).set 0
              { incStone (getPlayer s 0) with x := NX, y := NY }).getD 0 defaultPlayer)
            = ⟨1, NX, NY, [⟨1, "Stone", sc0 + 1⟩, ⟨2, "Wood", wc0⟩]⟩ := by
          rw [key0]
          rfl
        have hgp1' : (((s.players.set 0 (incStone (getPlayer s 0))).set 0
              { incStone (getPlayer s 0) with x := NX, y := NY }).getD 1 defaultPlayer)
            = ⟨2, x1, y1, [⟨1, "Stone", sc1⟩, ⟨2, "Wood", wc1⟩]⟩ := by
          rw [key0]
          rfl
        have hgrid : setCell (setCell s.grid (getPlayer s 0).y (getPlayer s 0).x
              CellState.Empty) NY NX (slotCell 0)
            = setCell (setCell s.grid y0 x0 CellState.Empty) NY NX CellState.Player1Cell := by
          rw [hA, slotCell_zero]
        refine ⟨⟨sc0 + 1, wc0, sc1, wc1, NX, NY, x1, y1, ?_⟩, ?_, ?_, ⟨?_, ?_⟩, ?_, ?_⟩
        · exact key0
        · show interiorPos (List.getD _ 0 defaultPlayer).x (List.getD _ 0 defaultPlayer).y
          rw [hgp0']
          exact interior_of_bounds hin.1 hin.2.1 hin.2.2.1 hin.2.2.2
        · show interiorPos (List.getD _ 1 defaultPlayer).x (List.getD _ 1 defaultPlayer).y
          rw [hgp1']
          exact hint1
        · show (List.getD _ 0 defaultPlayer).x ≠ (List.getD _ 1 defaultPlayer).x
            ∨ (List.getD _ 0 defaultPlayer).y ≠ (List.getD _ 1 defaultPlayer).y
          rw [hgp0', hgp1']
          show NX ≠ x1 ∨ NY ≠ y1
          by_cases hxx : NX = x1
          · right
            intro hyy
            exact hnoth ⟨hyy, hxx⟩
          · left
            exact hxx
        · intro y x hy hx
          show (_ = CellState.Player1Cell ↔ (y = (List.getD _ 0 defaultPlayer).y
              ∧ x = (List.getD _ 0 defaultPlayer).x))
            ∧ (_ = CellState.Player2Cell ↔ (y = (List.getD _ 1 defaultPlayer).y
              ∧ x = (List.getD _ 1 defaultPlayer).x))
          rw [hgp0', hgp1', hgrid]
          exact slotIff_move s.grid CellState.Player1Cell CellState.Player2Cell
            y0 x0 NY NX y1 x1 (by decide) (by decide) (by decide)
            hnold hnoth hoq hiff y x hy hx
        · exact logList_length_le _ _ hlog
        · unfold phi
          have hstep1 := stoneCells_setCell s.grid y0 x0 CellState.Empty hy0H hx0W
          rw [hg0] at hstep1
          simp only [reduceCtorEq, if_false] at hstep1
          have hmidval : setCell s.grid y0 x0 CellState.Empty NY NX = CellState.Stone := by
            rw [setCell_ne _ _ _ _ hnold]
            exact hval
          have hstep2 := stoneCells_setCell (setCell s.grid y0 x0 CellState.Empty) NY NX
            CellState.Player1Cell hNYH hNXW
          rw [hmidval] at hstep2
          simp only [reduceCtorEq, if_false, if_true] at hstep2
          show ((List.getD _ 0 defaultPlayer).stoneCount
              + (List.getD _ 1 defaultPlayer).stoneCount
              + stoneCells (setCell (setCell s.grid (getPlayer s 0).y (getPlayer s 0).x
                  CellState.Empty) NY NX (slotCell 0))) ≤ 1800
          rw [hgp0', hgp1', hgrid]
          simp only [Player.stoneCount, List.getD_cons_zero]
          omega
    | Player1Cell =>
        rw [move_player_blocked dx dy 0 s (by rw [hval]; simp) (by rw [hval]; simp)]
        exact hInv'
    | Player2Cell =>
        rw [move_player_blocked dx dy 0 s (by rw [hval]; simp) (by rw [hval]; simp)]
        exact hInv'
    | Water =>
        rw [move_player_blocked dx dy 0 s (by rw [hval]; simp) (by rw [hval]; simp)]
        exact hInv'
    | Wall =>
        rw [move_player_blocked dx dy 0 s (by rw [hval]; simp) (by rw [hval]; simp)]
        exact hInv'
  · -- player 1 moves
    by_cases hin : (0 < usizeCast (((getPlayer s 1).x : Int) + dx)
        ∧ 0 < usizeCast (((getPlayer s 1).y : Int) + dy)
        ∧ usizeCast (((getPlayer s 1).x : Int) + dx) < GAME_WIDTH - 1
        ∧ usizeCast (((getPlayer s 1).y : Int) + dy) < GAME_HEIGHT - 1)
    case neg =>
      rw [move_player_out dx dy 1 s hin]
      exact hInv'
    case pos =>
    set NX := usizeCast (((getPlayer s 1).x : Int) + dx) with hNX
    set NY := usizeCast (((getPlayer s 1).y : Int) + dy) with hNY
    have hNXW : NX < GAME_WIDTH := lt_W_of_lt_Wm1 hin.2.2.1
    have hNYH : NY < GAME_HEIGHT := lt_H_of_lt_Hm1 hin.2.2.2
    have hoq' : ¬ (y1 = y0 ∧ x1 = x0) := by
      intro h
      exact hoq ⟨h.1.symm, h.2.symm⟩
    have hiff' : ∀ y x, y < GAME_HEIGHT → x < GAME_WIDTH →
        (s.grid y x = CellState.Player2Cell ↔ (y = y1 ∧ x = x1)) ∧
        (s.grid y x = CellState.Player1Cell ↔ (y = y0 ∧ x = x0)) := by
      intro y x hy hx
      exact ⟨(hiff y x hy hx).2, (hiff y x hy hx).1⟩
    cases hval : s.grid NY NX with
    | Empty =>
        rw [move_player_empty_eq dx dy 1 s hin hval]
        have hnold : ¬ (NY = y1 ∧ NX = x1) := by
          intro hcontr
          rw [hcontr.1, hcontr.2, hg1] at hval
          cases hval
        have hnoth : ¬ (NY = y0 ∧ NX = x0) := by
          intro hcontr
          rw [hcontr.1, hcontr.2, hg0] at hval
          cases hval
        have key0 : s.players.set 1 { getPlayer s 1 with x := NX, y := NY }
            = [⟨1, x0, y0, [⟨1, "Stone", sc0⟩, ⟨2, "Wood", wc0⟩]⟩,
               ⟨2, NX, NY, [⟨1, "Stone", sc1⟩, ⟨2, "Wood", wc1⟩]⟩] := by
          rw [hB, hps]
          rfl
        have hgp0' : (s.players.set 1 { getPlayer s 1 with x := NX, y := NY }).getD 0 defaultPlayer
            = ⟨1, x0, y0, [⟨1, "Stone", sc0⟩, ⟨2, "Wood", wc0⟩]⟩ := by
          rw [key0]
          rfl
        have hgp1' : (s.players.set 1 { getPlayer s 1 with x := NX, y := NY }).getD 1 defaultPlayer
            = ⟨2, NX, NY, [⟨1, "Stone", sc1⟩, ⟨2, "Wood", wc1⟩]⟩ := by
          rw [key0]
          rfl
        have hgrid : setCell (setCell s.grid (getPlayer s 1).y (getPlayer s 1).x CellState.Empty)
            NY NX (slotCell 1) = setCell (setCell s.grid y1 x1 CellState.Empty) NY NX
              CellState.Player2Cell := by
          rw [hB, slotCell_one]
        refine ⟨⟨sc0, wc0, sc1, wc1, x0, y0, NX, NY, key0⟩, ?_, ?_, ⟨?_, ?_⟩, hlog, ?_⟩
        · show interiorPos ((s.players.set 1 _).getD 0 defaultPlayer).x
            ((s.players.set 1 _).getD 0 defaultPlayer).y
          rw [hgp0']
          exact hint0
        · show interiorPos ((s.players.set 1 _).getD 1 defaultPlayer).x
            ((s.players.set 1 _).getD 1 defaultPlayer).y
          rw [hgp1']
          exact interior_of_bounds hin.1 hin.2.1 hin.2.2.1 hin.2.2.2
        · show ((s.players.set 1 _).getD 0 defaultPlayer).x
              ≠ ((s.players.set 1 _).getD 1 defaultPlayer).x
            ∨ ((s.players.set 1 _).getD 0 defaultPlayer).y
              ≠ ((s.players.set 1 _).getD 1 defaultPlayer).y
          rw [hgp0', hgp1']
          show x0 ≠ NX ∨ y0 ≠ NY
          by_cases hxx : NX = x0
          · right
            intro hyy
            exact hnoth ⟨hyy.symm, hxx⟩
          · left
            intro hxx2
            exact hxx hxx2.symm
        · intro y x hy hx
          show (_ = CellState.Player1Cell ↔ (y = ((s.players.set 1 _).getD 0 defaultPlayer).y
              ∧ x = ((s.players.set 1 _).getD 0 defaultPlayer).x))
            ∧ (_ = CellState.Player2Cell ↔ (y = ((s.players.set 1 _).getD 1 defaultPlayer).y
              ∧ x = ((s.players.set 1 _).getD 1 defaultPlayer).x))
          rw [hgp0', hgp1', hgrid]
          have hres := slotIff_move s.grid CellState.Player2Cell CellState.Player1Cell
            y1 x1 NY NX y0 x0 (by decide) (by decide) (by decide)
            hnold hnoth hoq' hiff' y x hy hx
          exact ⟨hres.2, hres.1⟩
        · unfold phi
          have hstep1 := stoneCells_setCell s.grid y1 x1 CellState.Empty hy1H hx1W
          rw [hg1] at hstep1
          simp only [reduceCtorEq, if_false] at hstep1
          have hmidval : setCell s.grid y1 x1 CellState.Empty NY NX = CellState.Empty := by
            rw [setCell_ne _ _ _ _ hnold]
            exact hval
          have hstep2 := stoneCells_setCell (setCell s.grid y1 x1 CellState.Empty) NY NX
            CellState.Player2Cell hNYH hNXW
          rw [hmidval] at hstep2
          simp only [reduceCtorEq, if_false] at hstep2
          show (((s.players.set 1 _).getD 0 defaultPlayer).stoneCount
              + ((s.players.set 1 _).getD 1 defaultPlayer).stoneCount
              + stoneCells (setCell (setCell s.grid (getPlayer s 1).y (getPlayer s 1).x
                  CellState.Empty) NY NX (slotCell 1))) ≤ 1800
          rw [hgp0', hgp1', hgrid]
          simp only [Player.stoneCount, List.getD_cons_zero]
          omega
    | Stone =>
        rw [move_player_stone_collapsed dx dy 1 s hin hval]
        have hnold : ¬ (NY = y1 ∧ NX = x1) := by
          intro hcontr
          rw [hcontr.1, hcontr.2, hg1] at hval
          cases hval
        have hnoth : ¬ (NY = y0 ∧ NX = x0) := by
          intro hcontr
          rw [hcontr.1, hcontr.2, hg0] at hval
          cases hval
        have hq : incStone (getPlayer s 1)
            = ⟨2, x1, y1, [⟨1, "Stone", sc1 + 1⟩, ⟨2, "Wood", wc1⟩]⟩ := by
          rw [hB]
          rfl
        have key0 : (s.players.set 1 (incStone (getPlayer s 1))).set 1
              { incStone (getPlayer s 1) with x := NX, y := NY }
            = [⟨1, x0, y0, [⟨1, "Stone", sc0⟩, ⟨2, "Wood", wc0⟩]⟩,
               ⟨2, NX, NY, [⟨1, "Stone", sc1 + 1⟩, ⟨2, "Wood", wc1⟩]⟩] := by
          rw [List.set_set, hq, hps]
          rfl
        have hgp0' : (((s.players.set 1 (incStone (getPlayer s 1))).set 1
              { incStone (getPlayer s 1) with x := NX, y := NY }).getD 0 defaultPlayer)
            = ⟨1, x0, y0, [⟨1, "Stone", sc0⟩, ⟨2, "Wood", wc0⟩]⟩ := by
          rw [key0]
          rfl
        have hgp1' : (((s.players.set 1 (incStone (getPlayer s 1))).set 1
              { incStone (getPlayer s 1) with x := NX, y := NY }).getD 1 defaultPlayer)
            = ⟨2, NX, NY, [⟨1, "Stone", sc1 + 1⟩, ⟨2, "Wood", wc1⟩]⟩ := by
          rw [key0]
          rfl
        have hgrid : setCell (setCell s.grid (getPlayer s 1).y (getPlayer s 1).x
              CellState.Empty) NY NX (slotCell 1)
            = setCell (setCell s.grid y1 x1 CellState.Empty) NY NX CellState.Player2Cell := by
          rw [hB, slotCell_one]
        refine ⟨⟨sc0, wc0, sc1 + 1, wc1, x0, y0, NX, NY, ?_⟩, ?_, ?_, ⟨?_, ?_⟩, ?_, ?_⟩
        · exact key0
        · show interiorPos (List.getD _ 0 defaultPlayer).x (List.getD _ 0 defaultPlayer).y
          rw [hgp0']
          exact hint0
        · show interiorPos (List.getD _ 1 defaultPlayer).x (List.getD _ 1 defaultPlayer).y
          rw [hgp1']
          exact interior_of_bounds hin.1 hin.2.1 hin.2.2.1 hin.2.2.2
        · show (List.getD _ 0 defaultPlayer).x ≠ (List.getD _ 1 defaultPlayer).x
            ∨ (List.getD _ 0 defaultPlayer).y ≠ (List.getD _ 1 defaultPlayer).y
          rw [hgp0', hgp1']
          show x0 ≠ NX ∨ y0 ≠ NY
          by_cases hxx : NX = x0
          · right
            intro hyy
            exact hnoth ⟨hyy.symm, hxx⟩
          · left
            intro hxx2
            exact hxx hxx2.symm
        · intro y x hy hx
          show (_ = CellState.Player1Cell ↔ (y = (List.getD _ 0 defaultPlayer).y
              ∧ x = (List.getD _ 0 defaultPlayer).x))
            ∧ (_ = CellState.Player2Cell ↔ (y = (List.getD _ 1 defaultPlayer).y
              ∧ x = (List.getD _ 1 defaultPlayer).x))
          rw [hgp0', hgp1', hgrid]
          have hres := slotIff_move s.grid CellState.Player2Cell CellState.Player1Cell
            y1 x1 NY NX y0 x0 (by decide) (by decide) (by decide)
            hnold hnoth hoq' hiff' y x hy hx
          exact ⟨hres.2, hres.1⟩
        · exact logList_length_le _ _ hlog
        · unfold phi
          have hstep1 := stoneCells_setCell s.grid y1 x1 CellState.Empty hy1H hx1W
          rw [hg1] at hstep1
          simp only [reduceCtorEq, if_false] at hstep1
          have hmidval : setCell s.grid y1 x1 CellState.Empty NY NX = CellState.Stone := by
            rw [setCell_ne _ _ _ _ hnold]
            exact hval
          have hstep2 := stoneCells_setCell (setCell s.grid y1 x1 CellState.Empty) NY NX
            CellState.Player2Cell hNYH hNXW
          rw [hmidval] at hstep2
          simp only [reduceCtorEq, if_false, if_true] at hstep2
          show ((List.getD _ 0 defaultPlayer).stoneCount
              + (List.getD _ 1 defaultPlayer).stoneCount
              + stoneCells (setCell (setCell s.grid (getPlayer s 1).y (getPlayer s 1).x
                  CellState.Empty) NY NX (slotCell 1))) ≤ 1800
          rw [hgp0', hgp1', hgrid]
          simp only [Player.stoneCount, List.getD_cons_zero]
          omega
    | Player1Cell =>
        rw [move_player_blocked dx dy 1 s (by rw [hval]; simp) (by rw [hval]; simp)]
        exact hInv'
    | Player2Cell =>
        rw [move_player_blocked dx dy 1 s (by rw [hval]; simp) (by rw [hval]; simp)]
        exact hInv'
    | Water =>
        rw [move_player_blocked dx dy 1 s (by rw [hval]; simp) (by rw [hval]; simp)]
        exact hInv'
    | Wall =>
        rw [move_player_blocked dx dy 1 s (by rw [hval]; simp) (by rw [hval]; simp)]
        exact hInv'

/-- The success arm of `place_stone` written as one record. -/
lemma place_stone_success_collapsed (tx ty pi : Nat) (s : GameState)
    (h1 : ¬ (GAME_WIDTH ≤ tx ∨ GAME_HEIGHT ≤ ty))
    (h2 : s.grid ty tx = CellState.Empty)
    (h3 : (getPlayer s pi).stoneCount ≠ 0)
    (h4 : ((tx : Int) - ((getPlayer s pi).x : Int)).natAbs ≤ 1
        ∧ ((ty : Int) - ((getPlayer s pi).y : Int)).natAbs ≤ 1) :
    place_stone tx ty pi s =
      { players := s.players.set pi (decStone (getPlayer s pi)),
        grid := setCell s.grid ty tx CellState.Stone,
        debug_log := logList s.debug_log (placedMsg pi tx ty),
        debug_panel_enabled := s.debug_panel_enabled } := by
  rw [place_stone_success_eq tx ty pi s h1 h2 h3 h4]
  simp only [log_debug_message]

lemma inv_place (tx ty : Nat) (pi : Nat) (hpi : pi < 2) (s : GameState) (hInv : Inv s) :
    Inv (place_stone tx ty pi s) := by
  have hInv' := hInv
  obtain ⟨⟨sc0, wc0, sc1, wc1, x0, y0, x1, y1, hps⟩, hint0, hint1, hslot, hlog, hphi⟩ := hInv
  have hA : getPlayer s 0 = ⟨1, x0, y0, [⟨1, "Stone", sc0⟩, ⟨2, "Wood", wc0⟩]⟩ := by
    simp [getPlayer, hps]
  have hB : getPlayer s 1 = ⟨2, x1, y1, [⟨1, "Stone", sc1⟩, ⟨2, "Wood", wc1⟩]⟩ := by
    simp [getPlayer, hps]
  rw [hA] at hint0
  rw [hB] at hint1
  have hy0H : y0 < GAME_HEIGHT := interior_yH hint0
  have hx0W : x0 < GAME_WIDTH := interior_xW hint0
  have hy1H : y1 < GAME_HEIGHT := interior_yH hint1
  have hx1W : x1 < GAME_WIDTH := interior_xW hint1
  have hiff : ∀ y x, y < GAME_HEIGHT → x < GAME_WIDTH →
      (s.grid y x = CellState.Player1Cell ↔ (y = y0 ∧ x = x0)) ∧
      (s.grid y x = CellState.Player2Cell ↔ (y = y1 ∧ x = x1)) := by
    intro y x hy hx
    have h := hslot.2 y x hy hx
    rw [hA, hB] at h
    exact h
  have hg0 : s.grid y0 x0 = CellState.Player1Cell := (hiff y0 x0 hy0H hx0W).1.mpr ⟨rfl, rfl⟩
  have hg1 : s.grid y1 x1 = CellState.Player2Cell := (hiff y1 x1 hy1H hx1W).2.mpr ⟨rfl, rfl⟩
  have hphi' : sc0 + sc1 + stoneCells s.grid ≤ 1800 := by
    unfold phi at hphi
    rw [hA, hB] at hphi
    simpa [Player.stoneCount, List.getD_cons_zero] using hphi
  by_cases h1 : (GAME_WIDTH ≤ tx ∨ GAME_HEIGHT ≤ ty)
  · rw [place_stone_oob_eq tx ty pi s h1]
    exact inv_log _ _ hInv'
  by_cases h2 : s.grid ty tx ≠ CellState.Empty
  · rw [place_stone_notEmpty_eq tx ty pi s h1 h2]
    exact inv_log _ _ hInv'
  have h2' : s.grid ty tx = CellState.Empty := not_not.mp h2
  by_cases h3 : (getPlayer s pi).stoneCount = 0
  · rw [place_stone_noStones_eq tx ty pi s h1 h2' h3]
    exact inv_log _ _ hInv'
  by_cases h4 : (((tx : Int) - ((getPlayer s pi).x : Int)).natAbs ≤ 1
      ∧ ((ty : Int) - ((getPlayer s pi).y : Int)).natAbs ≤ 1)
  case neg =>
    rw [place_stone_notAdj_eq tx ty pi s h1 h2' h3 h4]
    exact inv_log _ _ hInv'
  case pos =>
  rw [place_stone_success_collapsed tx ty pi s h1 h2' h3 h4]
  have htxW : tx < GAME_WIDTH := by
    rcases not_or.mp h1 with ⟨ha, _⟩
    omega
  have htyH : ty < GAME_HEIGHT := by
    rcases not_or.mp h1 with ⟨_, hb⟩
    omega
  have hntp0 : ¬ (ty = y0 ∧ tx = x0) := by
    intro hcontr
    rw [hcontr.1, hcontr.2, hg0] at h2'
    cases h2'
  have hntp1 : ¬ (ty = y1 ∧ tx = x1) := by
    intro hcontr
    rw [hcontr.1, hcontr.2, hg1] at h2'
    cases h2'
  have hstep := stoneCells_setCell s.grid ty tx CellState.Stone htyH htxW
  rw [h2'] at hstep
  simp only [reduceCtorEq, if_false, if_true] at hstep
  have hslotIff : ∀ y x, y < GAME_HEIGHT → x < GAME_WIDTH →
      ((setCell s.grid ty tx CellState.Stone) y x = CellState.Player1Cell ↔ (y = y0 ∧ x = x0)) ∧
      ((setCell s.grid ty tx CellState.Stone) y x = CellState.Player2Cell ↔ (y = y1 ∧ x = x1)) := by
    intro y x hy hx
    by_cases hyx : y = ty ∧ x = tx
    · obtain ⟨rfl, rfl⟩ := hyx
      rw [setCell_self]
      exact ⟨⟨fun h => (by cases h), fun h => absurd h hntp0⟩,
             ⟨fun h => (by cases h), fun h => absurd h hntp1⟩⟩
    · rw [setCell_ne _ _ _ _ hyx]
      exact hiff y x hy hx
  interval_cases pi
  · -- player 0 places
    have hq : decStone (getPlayer s 0)
        = ⟨1, x0, y0, [⟨1, "Stone", sc0 - 1⟩, ⟨2, "Wood", wc0⟩]⟩ := by
      rw [hA]
      rfl
    have hsc : (getPlayer s 0).stoneCount = sc0 := by
      rw [hA]
      rfl
    rw [hsc] at h3
    have key0 : s.players.set 0 (decStone (getPlayer s 0))
        = [⟨1, x0, y0, [⟨1, "Stone", sc0 - 1⟩, ⟨2, "Wood", wc0⟩]⟩,
           ⟨2, x1, y1, [⟨1, "Stone", sc1⟩, ⟨2, "Wood", wc1⟩]⟩] := by
      rw [hq, hps]
      rfl
    have hgp0' : (s.players.set 0 (decStone (getPlayer s 0))).getD 0 defaultPlayer
        = ⟨1, x0, y0, [⟨1, "Stone", sc0 - 1⟩, ⟨2, "Wood", wc0⟩]⟩ := by
      rw [key0]
      rfl
    have hgp1' : (s.players.set 0 (decStone (getPlayer s 0))).getD 1 defaultPlayer
        = ⟨2, x1, y1, [⟨1, "Stone", sc1⟩, ⟨2, "Wood", wc1⟩]⟩ := by
      rw [key0]
      rfl
    refine ⟨⟨sc0 - 1, wc0, sc1, wc1, x0, y0, x1, y1, key0⟩, ?_, ?_, ⟨?_, ?_⟩, ?_, ?_⟩
    · show interiorPos (List.getD _ 0 defaultPlayer).x (List.getD _ 0 defaultPlayer).y
      rw [hgp0']
      exact hint0
    · show interiorPos (List.getD _ 1 defaultPlayer).x (List.getD _ 1 defaultPlayer).y
      rw [hgp1']
      exact hint1
    · show (List.getD _ 0 defaultPlayer).x ≠ (List.getD _ 1 defaultPlayer).x
        ∨ (List.getD _ 0 defaultPlayer).y ≠ (List.getD _ 1 defaultPlayer).y
      rw [hgp0', hgp1']
      have hd := hslot.1
      rw [hA, hB] at hd
      exact hd
    · intro y x hy hx
      show (_ = CellState.Player1Cell ↔ (y = (List.getD _ 0 defaultPlayer).y
          ∧ x = (List.getD _ 0 defaultPlayer).x))
        ∧ (_ = CellState.Player2Cell ↔ (y = (List.getD _ 1 defaultPlayer).y
          ∧ x = (List.getD _ 1 defaultPlayer).x))
      rw [hgp0', hgp1']
      exact hslotIff y x hy hx
    · exact logList_length_le _ _ hlog
    · unfold phi
      show ((List.getD _ 0 defaultPlayer).stoneCount
          + (List.getD _ 1 defaultPlayer).stoneCount
          + stoneCells (setCell s.grid ty tx CellState.Stone)) ≤ 1800
      rw [hgp0', hgp1']
      simp only [Player.stoneCount, List.getD_cons_zero]
      omega
  · -- player 1 places
    have hq : decStone (getPlayer s 1)
        = ⟨2, x1, y1, [⟨1, "Stone", sc1 - 1⟩, ⟨2, "Wood", wc1⟩]⟩ := by
      rw [hB]
      rfl
    have hsc : (getPlayer s 1).stoneCount = sc1 := by
      rw [hB]
      rfl
    rw [hsc] at h3
    have key0 : s.players.set 1 (decStone (getPlayer s 1))
        = [⟨1, x0, y0, [⟨1, "Stone", sc0⟩, ⟨2, "Wood", wc0⟩]⟩,
           ⟨2, x1, y1, [⟨1, "Stone", sc1 - 1⟩, ⟨2, "Wood", wc1⟩]⟩] := by
      rw [hq, hps]
      rfl
    have hgp0' : (s.players.set 1 (decStone (getPlayer s 1))).getD 0 defaultPlayer
        = ⟨1, x0, y0, [⟨1, "Stone", sc0⟩, ⟨2, "Wood", wc0⟩]⟩ := by
      rw [key0]
      rfl
    have hgp1' : (s.players.set 1 (decStone (getPlayer s 1))).getD 1 defaultPlayer
        = ⟨2, x1, y1, [⟨1, "Stone", sc1 - 1⟩, ⟨2, "Wood", wc1⟩]⟩ := by
      rw [key0]
      rfl
    refine ⟨⟨sc0, wc0, sc1 - 1, wc1, x0, y0, x1, y1, key0⟩, ?_, ?_, ⟨?_, ?_⟩, ?_, ?_⟩
    · show interiorPos (List.getD _ 0 defaultPlayer).x (List.getD _ 0 defaultPlayer).y
      rw [hgp0']
      exact hint0
    · show interiorPos (List.getD _ 1 defaultPlayer).x (List.getD _ 1 defaultPlayer).y
      rw [hgp1']
      exact hint1
    · show (List.getD _ 0 defaultPlayer).x ≠ (List.getD _ 1 defaultPlayer).x
        ∨ (List.getD _ 0 defaultPlayer).y ≠ (List.getD _ 1 defaultPlayer).y
      rw [hgp0', hgp1']
      have hd := hslot.1
      rw [hA, hB] at hd
      exact hd
    · intro y x hy hx
      show (_ = CellState.Player1Cell ↔ (y = (List.getD _ 0 defaultPlayer).y
          ∧ x = (List.getD _ 0 defaultPlayer).x))
        ∧ (_ = CellState.Player2Cell ↔ (y = (List.getD _ 1 defaultPlayer).y
          ∧ x = (List.getD _ 1 defaultPlayer).x))
      rw [hgp0', hgp1']
      exact hslotIff y x hy hx
    · exact logList_length_le _ _ hlog
    · unfold phi
      show ((List.getD _ 0 defaultPlayer).stoneCount
          + (List.getD _ 1 defaultPlayer).stoneCount
          + stoneCells (setCell s.grid ty tx CellState.Stone)) ≤ 1800
      rw [hgp0', hgp1']
      simp only [Player.stoneCount, List.getD_cons_zero]
      omega

lemma inv_apply (s : GameState) (hInv : Inv s) (op : Op) : Inv (applyOp s op) := by
  cases op with
  | move d pi => exact inv_move d.dx d.dy pi.val pi.isLt s hInv
  | place tx ty pi => exact inv_place tx ty pi.val pi.isLt s hInv
  | regen water stone => exact inv_regen water stone s hInv
  | logMsg m => exact inv_log m s hInv
  | clearLog => exact inv_clear s hInv
  | togglePanel => exact inv_toggle s hInv

lemma runOps_inv (ops : List Op) (s : GameState) (hInv : Inv s) : Inv (runOps s ops) := by
  induction ops generalizing s with
  | nil => exact hInv
  | cons op ops ih => exact ih _ (inv_apply s hInv op)

lemma reachable_inv (s : GameState) (h : Reachable s) : Inv s := by
  obtain ⟨water, stone, ops, rfl⟩ := h
  exact runOps_inv ops _ (inv_new water stone)

/-! ### Generation invariant (claim C1) -/

/-- Position at Chebyshev distance at least 2 from the wall ring, so the
whole 3×3 neighborhood lies in the open interior. -/
def deepInterior (x y : Nat) : Prop :=
  2 ≤ x ∧ x ≤ GAME_WIDTH - 3 ∧ 2 ≤ y ∧ y ≤ GAME_HEIGHT - 3

instance (x y : Nat) : Decidable (deepInterior x y) := by
  unfold deepInterior; infer_instance

/-- The two positions are at Chebyshev distance at least 2, so neither lies
in the other's 3×3 neighborhood. -/
def chebFar (x0 y0 x1 y1 : Nat) : Prop :=
  2 ≤ ((x0 : Int) - (x1 : Int)).natAbs ∨ 2 ≤ ((y0 : Int) - (y1 : Int)).natAbs

instance (x0 y0 x1 y1 : Nat) : Decidable (chebFar x0 y0 x1 y1) := by
  unfold chebFar; infer_instance

/-- The generation invariant claimed by the spec: every border cell is Wall,
each player's own cell carries its slot variant, and each player's 3×3
neighborhood holds no Water/Stone/Wall and exactly one ActorSlot cell
(the player's own). -/
def GenInvariant (s : GameState) : Prop :=
  (∀ x, x < GAME_WIDTH → s.grid 0 x = CellState.Wall
      ∧ s.grid (GAME_HEIGHT - 1) x = CellState.Wall) ∧
  (∀ y, y < GAME_HEIGHT → s.grid y 0 = CellState.Wall
      ∧ s.grid y (GAME_WIDTH - 1) = CellState.Wall) ∧
  (∀ i : Fin 2,
    s.grid (getPlayer s i.val).y (getPlayer s i.val).x = slotCell i.val ∧
    ∀ y x : Nat, ((y : Int) - ((getPlayer s i.val).y : Int)).natAbs ≤ 1 →
        ((x : Int) - ((getPlayer s i.val).x : Int)).natAbs ≤ 1 →
      (s.grid y x ≠ CellState.Water ∧ s.grid y x ≠ CellState.Stone
          ∧ s.grid y x ≠ CellState.Wall) ∧
      ((s.grid y x = CellState.Player1Cell ∨ s.grid y x = CellState.Player2Cell)
          ↔ (y = (getPlayer s i.val).y ∧ x = (getPlayer s i.val).x)))

lemma baseGrid_border (water stone : Nat → Nat → Bool) (y x : Nat)
    (h : (y = 0 ∧ x < GAME_WIDTH) ∨ (y = GAME_HEIGHT - 1 ∧ x < GAME_WIDTH)
      ∨ (x = 0 ∧ y < GAME_HEIGHT) ∨ (x = GAME_WIDTH - 1 ∧ y < GAME_HEIGHT)) :
    baseGrid water stone y x = CellState.Wall := by
  unfold baseGrid stonePass waterPass stampWalls
  rw [if_neg, if_neg, if_pos h]
  · intro hc
    unfold GAME_HEIGHT GAME_WIDTH at h hc
    omega
  · intro hc
    unfold GAME_HEIGHT GAME_WIDTH at h hc
    omega

lemma generate_map_genInv (water stone : Nat → Nat → Bool) (s : GameState)
    (hshape : PlayersShape s)
    (h0 : deepInterior (getPlayer s 0).x (getPlayer s 0).y)
    (h1 : deepInterior (getPlayer s 1).x (getPlayer s 1).y)
    (hsep : chebFar (getPlayer s 0).x (getPlayer s 0).y
      (getPlayer s 1).x (getPlayer s 1).y) :
    GenInvariant (generate_map water stone s) := by
  obtain ⟨sc0, wc0, sc1, wc1, x0, y0, x1, y1, hps⟩ := hshape
  have hA : getPlayer s 0 = ⟨1, x0, y0, [⟨1, "Stone", sc0⟩, ⟨2, "Wood", wc0⟩]⟩ := by
    simp [getPlayer, hps]
  have hB : getPlayer s 1 = ⟨2, x1, y1, [⟨1, "Stone", sc1⟩, ⟨2, "Wood", wc1⟩]⟩ := by
    simp [getPlayer, hps]
  rw [hA] at h0
  rw [hB] at h1
  have h0' : deepInterior x0 y0 := h0
  have h1' : deepInterior x1 y1 := h1
  have hsep' : chebFar x0 y0 x1 y1 := by
    rw [hA, hB] at hsep
    exact hsep
  unfold deepInterior GAME_WIDTH GAME_HEIGHT at h0' h1'
  unfold chebFar at hsep'
  have hG : (generate_map water stone s).grid
      = setCell (setCell (s.players.foldl (fun g p => clearAround p.x p.y g)
          (baseGrid water stone)) y0 x0 CellState.Player1Cell) y1 x1 CellState.Player2Cell := by
    rw [generate_map_grid_eq, hA, hB]
  have hgp0 : getPlayer (generate_map water stone s) 0
      = ⟨1, x0, y0, [⟨1, "Stone", sc0⟩, ⟨2, "Wood", wc0⟩]⟩ := by
    rw [generate_map_getPlayer, hA]
  have hgp1 : getPlayer (generate_map water stone s) 1
      = ⟨2, x1, y1, [⟨1, "Stone", sc1⟩, ⟨2, "Wood", wc1⟩]⟩ := by
    rw [generate_map_getPlayer, hB]
  have hAmem : (⟨1, x0, y0, [⟨1, "Stone", sc0⟩, ⟨2, "Wood", wc0⟩]⟩ : Player) ∈ s.players := by
    rw [hps]
    exact List.mem_cons_self _ _
  have hBmem : (⟨2, x1, y1, [⟨1, "Stone", sc1⟩, ⟨2, "Wood", wc1⟩]⟩ : Player) ∈ s.players := by
    rw [hps]
    exact List.mem_cons_of_mem _ (List.mem_cons_self _ _)
  have hclearNot : ∀ y x, (y = 0 ∨ y = GAME_HEIGHT - 1 ∨ x = 0 ∨ x = GAME_WIDTH - 1) →
      ∀ p ∈ s.players, ¬ inClearance p.x p.y y x := by
    intro y x hcase p hp
    rw [hps] at hp
    intro hc
    unfold inClearance at hc
    unfold GAME_HEIGHT GAME_WIDTH at hcase hc
    rcases List.mem_cons.mp hp with rfl | hp2
    · simp only at hc
      omega
    · rcases List.mem_cons.mp hp2 with rfl | hp3
      · simp only at hc
        omega
      · cases hp3
  refine ⟨?_, ?_, ?_⟩
  · intro x hx
    constructor
    · rw [hG, setCell_ne _ _ _ _ (by unfold GAME_HEIGHT GAME_WIDTH at *; omega),
        setCell_ne _ _ _ _ (by unfold GAME_HEIGHT GAME_WIDTH at *; omega),
        clearFold_eq_of_not _ _ _ _ (hclearNot 0 x (Or.inl rfl)),
        baseGrid_border water stone 0 x (Or.inl ⟨rfl, hx⟩)]
    · rw [hG, setCell_ne _ _ _ _ (by unfold GAME_HEIGHT GAME_WIDTH at *; omega),
        setCell_ne _ _ _ _ (by unfold GAME_HEIGHT GAME_WIDTH at *; omega),
        clearFold_eq_of_not _ _ _ _ (hclearNot _ x (Or.inr (Or.inl rfl))),
        baseGrid_border water stone _ x (Or.inr (Or.inl ⟨rfl, hx⟩))]
  · intro y hy
    constructor
    · rw [hG, setCell_ne _ _ _ _ (by unfold GAME_HEIGHT GAME_WIDTH at *; omega),
        setCell_ne _ _ _ _ (by unfold GAME_HEIGHT GAME_WIDTH at *; omega),
        clearFold_eq_of_not _ _ _ _ (hclearNot y 0 (Or.inr (Or.inr (Or.inl rfl)))),
        baseGrid_border water stone y 0 (Or.inr (Or.inr (Or.inl ⟨rfl, hy⟩)))]
    · rw [hG, setCell_ne _ _ _ _ (by unfold GAME_HEIGHT GAME_WIDTH at *; omega),
        setCell_ne _ _ _ _ (by unfold GAME_HEIGHT GAME_WIDTH at *; omega),
        clearFold_eq_of_not _ _ _ _ (hclearNot y _ (Or.inr (Or.inr (Or.inr rfl)))),
        baseGrid_border water stone y _ (Or.inr (Or.inr (Or.inr ⟨rfl, hy⟩)))]
  · intro i
    rcases i with ⟨iv, hi⟩
    interval_cases iv
    · constructor
      · rw [hgp0]
        show (generate_map water stone s).grid y0 x0 = slotCell 0
        rw [hG, slotCell_zero,
          setCell_ne _ _ _ _ (show ¬ (y0 = y1 ∧ x0 = x1) by omega), setCell_self]
      · intro y x hcy hcx
        rw [hgp0] at hcy hcx
        have hcy' : ((y : Int) - (y0 : Int)).natAbs ≤ 1 := hcy
        have hcx' : ((x : Int) - (x0 : Int)).natAbs ≤ 1 := hcx
        rw [hgp0]
        show ((generate_map water stone s).grid y x ≠ CellState.Water
            ∧ (generate_map water stone s).grid y x ≠ CellState.Stone
            ∧ (generate_map water stone s).grid y x ≠ CellState.Wall)
          ∧ (((generate_map water stone s).grid y x = CellState.Player1Cell
              ∨ (generate_map water stone s).grid y x = CellState.Player2Cell)
            ↔ (y = y0 ∧ x = x0))
        have hnp1 : ¬ (y = y1 ∧ x = x1) := by
          intro hc
          omega
        by_cases hcen : y = y0 ∧ x = x0
        · obtain ⟨rfl, rfl⟩ := hcen
          rw [hG, setCell_ne _ _ _ _ hnp1, setCell_self]
          exact ⟨⟨by simp, by simp, by simp⟩,
            Iff.intro (fun _ => ⟨rfl, rfl⟩) (fun _ => Or.inl rfl)⟩
        · have hEmp : (generate_map water stone s).grid y x = CellState.Empty := by
            rw [hG, setCell_ne _ _ _ _ hnp1, setCell_ne _ _ _ _ hcen]
            refine clearFold_empty_of_mem _ _ _ _ _ hAmem ?_
            show inClearance x0 y0 y x
            unfold inClearance
            refine ⟨hcy', hcx', by omega, by unfold GAME_HEIGHT; omega, by omega,
              by unfold GAME_WIDTH; omega⟩
          rw [hEmp]
          exact ⟨⟨by simp, by simp, by simp⟩,
            Iff.intro (fun h => by rcases h with h | h <;> cases h)
              (fun h => absurd h hcen)⟩
    · constructor
      · rw [hgp1]
        show (generate_map water stone s).grid y1 x1 = slotCell 1
        rw [hG, slotCell_one, setCell_self]
      · intro y x hcy hcx
        rw [hgp1] at hcy hcx
        have hcy' : ((y : Int) - (y1 : Int)).natAbs ≤ 1 := hcy
        have hcx' : ((x : Int) - (x1 : Int)).natAbs ≤ 1 := hcx
        rw [hgp1]
        show ((generate_map water stone s).grid y x ≠ CellState.Water
            ∧ (generate_map water stone s).grid y x ≠ CellState.Stone
            ∧ (generate_map water stone s).grid y x ≠ CellState.Wall)
          ∧ (((generate_map water stone s).grid y x = CellState.Player1Cell
              ∨ (generate_map water stone s).grid y x = CellState.Player2Cell)
            ↔ (y = y1 ∧ x = x1))
        have hnp0 : ¬ (y = y0 ∧ x = x0) := by
          intro hc
          omega
        by_cases hcen : y = y1 ∧ x = x1
        · obtain ⟨rfl, rfl⟩ := hcen
          rw [hG, setCell_self]
          exact ⟨⟨by simp, by simp, by simp⟩,
            Iff.intro (fun _ => ⟨rfl, rfl⟩) (fun _ => Or.inr rfl)⟩
        · have hEmp : (generate_map water stone s).grid y x = CellState.Empty := by
            rw [hG, setCell_ne _ _ _ _ hcen, setCell_ne _ _ _ _ hnp0]
            refine clearFold_empty_of_mem _ _ _ _ _ hBmem ?_
            show inClearance x1 y1 y x
            unfold inClearance
            refine ⟨hcy', hcx', by omega, by unfold GAME_HEIGHT; omega, by omega,
              by unfold GAME_WIDTH; omega⟩
          rw [hEmp]
          exact ⟨⟨by simp, by simp, by simp⟩,
            Iff.intro (fun h => by rcases h with h | h <;> cases h)
              (fun h => absurd h hcen)⟩

/-! ### Claim theorems -/

/-- C1 counterexample: the claim "every border cell is Wall after
`regenerate()` in every reachable state" fails.  Starting from `new()` (with
all-false noise fields), moving player 2 one step right puts it at
`x = GAME_WIDTH - 2`; the clearance loop of the following `regenerate()`
passes its `nx < GAME_WIDTH` check for the border column `GAME_WIDTH - 1` and
carves the border cell `(row 27, column 59)` to `Empty`. -/
theorem C1_counterexample :
    Reachable (runOps (GameState.new (fun _ _ => false) (fun _ _ => false))
        [Op.move Dir.right 1, Op.regen (fun _ _ => false) (fun _ _ => false)])
    ∧ (runOps (GameState.new (fun _ _ => false) (fun _ _ => false))
        [Op.move Dir.right 1, Op.regen (fun _ _ => false) (fun _ _ => false)]).grid
        27 (GAME_WIDTH - 1) ≠ CellState.Wall := by
  constructor
  · exact ⟨fun _ _ => false, fun _ _ => false,
      [Op.move Dir.right 1, Op.regen (fun _ _ => false) (fun _ _ => false)], rfl⟩
  · decide

/-- C1 (amended): after `new()` the generation invariant holds
unconditionally; after `regenerate()` it holds provided every actor sits at
Chebyshev distance at least 2 from the wall ring and the two actors are at
Chebyshev distance at least 2 from each other (both provisos hold for the
`new()` starting positions but can be violated by later movement, as the
counterexample shows). -/
theorem C1_generation_invariant (water stone water2 stone2 : Nat → Nat → Bool)
    (s : GameState) (hshape : PlayersShape s)
    (h0 : deepInterior (getPlayer s 0).x (getPlayer s 0).y)
    (h1 : deepInterior (getPlayer s 1).x (getPlayer s 1).y)
    (hsep : chebFar (getPlayer s 0).x (getPlayer s 0).y
      (getPlayer s 1).x (getPlayer s 1).y) :
    GenInvariant (regenerate_game_state water stone s)
      ∧ GenInvariant (GameState.new water2 stone2) := by
  constructor
  · obtain ⟨sc0, wc0, sc1, wc1, x0, y0, x1, y1, hps⟩ := hshape
    have hA : getPlayer s 0 = ⟨1, x0, y0, [⟨1, "Stone", sc0⟩, ⟨2, "Wood", wc0⟩]⟩ := by
      simp [getPlayer, hps]
    have hB : getPlayer s 1 = ⟨2, x1, y1, [⟨1, "Stone", sc1⟩, ⟨2, "Wood", wc1⟩]⟩ := by
      simp [getPlayer, hps]
    have hps' : s.players.map resetStone
        = [⟨1, x0, y0, [⟨1, "Stone", 0⟩, ⟨2, "Wood", wc0⟩]⟩,
           ⟨2, x1, y1, [⟨1, "Stone", 0⟩, ⟨2, "Wood", wc1⟩]⟩] := by
      simp [hps, resetStone]
    have e0 : getPlayer ({ s with players := s.players.map resetStone } : GameState) 0
        = ⟨1, x0, y0, [⟨1, "Stone", 0⟩, ⟨2, "Wood", wc0⟩]⟩ := by
      show (s.players.map resetStone).getD 0 defaultPlayer = _
      rw [hps']
      rfl
    have e1 : getPlayer ({ s with players := s.players.map resetStone } : GameState) 1
        = ⟨2, x1, y1, [⟨1, "Stone", 0⟩, ⟨2, "Wood", wc1⟩]⟩ := by
      show (s.players.map resetStone).getD 1 defaultPlayer = _
      rw [hps']
      rfl
    rw [hA] at h0
    rw [hB] at h1
    rw [hA, hB] at hsep
    unfold regenerate_game_state
    apply generate_map_genInv
    · refine ⟨0, wc0, 0, wc1, x0, y0, x1, y1, ?_⟩
      show s.players.map resetStone = _
      exact hps'
    · rw [e0]
      exact h0
    · rw [e1]
      exact h1
    · rw [e0, e1]
      exact hsep
  · unfold GameState.new
    apply generate_map_genInv
    · exact ⟨0, 0, 0, 0, 2, 2, GAME_WIDTH - 3, GAME_HEIGHT - 3, rfl⟩
    · decide
    · decide
    · decide

theorem C1_generation_invariant_witness :
    GenInvariant (regenerate_game_state (fun _ _ => false) (fun _ _ => false)
        (GameState.new (fun _ _ => false) (fun _ _ => false)))
      ∧ GenInvariant (GameState.new (fun _ _ => false) (fun _ _ => false)) :=
  C1_generation_invariant (fun _ _ => false) (fun _ _ => false)
    (fun _ _ => false) (fun _ _ => false)
    (GameState.new (fun _ _ => false) (fun _ _ => false))
    ⟨0, 0, 0, 0, 2, 2, GAME_WIDTH - 3, GAME_HEIGHT - 3, rfl⟩
    (by decide) (by decide) (by decide)

/-- C2: in every state reachable from `new()` by the public operations, the
cells bearing an ActorSlot variant are exactly the current player positions
(each player's cell holding its own variant), and the two players never share
a coordinate. -/
theorem C2_slot_invariant (s : GameState) (h : Reachable s) : SlotInvariant s :=
  (reachable_inv s h).2.2.2.1

theorem C2_slot_invariant_witness :
    SlotInvariant (GameState.new (fun _ _ => false) (fun _ _ => false)) :=
  C2_slot_invariant (GameState.new (fun _ _ => false) (fun _ _ => false))
    ⟨fun _ _ => false, fun _ _ => false, [], rfl⟩

/-- Full effect claimed for a move onto a Stone cell: the actor relocates
(old cell `Empty`, candidate cell the actor's own slot variant, stored
position updated), its Stone counter grows by exactly one, every other cell,
the other player and the panel flag are untouched, and exactly one log entry
reporting the actor id (`player_index + 1 = player_id`) and the new total is
appended through the bounded log. -/
def MoveStoneSpec (s : GameState) (d : Dir) (pi : Fin 2) : Prop :=
  (move_player d.dx d.dy pi.val s).grid (getPlayer s pi.val).y (getPlayer s pi.val).x
      = CellState.Empty
  ∧ (move_player d.dx d.dy pi.val s).grid
      (usizeCast (((getPlayer s pi.val).y : Int) + d.dy))
      (usizeCast (((getPlayer s pi.val).x : Int) + d.dx)) = slotCell pi.val
  ∧ getPlayer (move_player d.dx d.dy pi.val s) pi.val
      = { incStone (getPlayer s pi.val) with
          x := usizeCast (((getPlayer s pi.val).x : Int) + d.dx),
          y := usizeCast (((getPlayer s pi.val).y : Int) + d.dy) }
  ∧ (getPlayer (move_player d.dx d.dy pi.val s) pi.val).stoneCount
      = (getPlayer s pi.val).stoneCount + 1
  ∧ getPlayer (move_player d.dx d.dy pi.val s) (1 - pi.val) = getPlayer s (1 - pi.val)
  ∧ (∀ y x : Nat, ¬ (y = (getPlayer s pi.val).y ∧ x = (getPlayer s pi.val).x) →
      ¬ (y = usizeCast (((getPlayer s pi.val).y : Int) + d.dy)
          ∧ x = usizeCast (((getPlayer s pi.val).x : Int) + d.dx)) →
      (move_player d.dx d.dy pi.val s).grid y x = s.grid y x)
  ∧ (move_player d.dx d.dy pi.val s).debug_log
      = logList s.debug_log (collectMsg pi.val ((getPlayer s pi.val).stoneCount + 1))
  ∧ (getPlayer s pi.val).player_id = pi.val + 1
  ∧ (move_player d.dx d.dy pi.val s).debug_panel_enabled = s.debug_panel_enabled

/-- C3: in any reachable state, if the candidate cell lies in the open
interior and holds Stone, the move collects the stone as specified by
`MoveStoneSpec`. -/
theorem C3_move_into_stone (s : GameState) (hs : Reachable s) (d : Dir) (pi : Fin 2)
    (hin : 0 < usizeCast (((getPlayer s pi.val).x : Int) + d.dx)
          ∧ 0 < usizeCast (((getPlayer s pi.val).y : Int) + d.dy)
          ∧ usizeCast (((getPlayer s pi.val).x : Int) + d.dx) < GAME_WIDTH - 1
          ∧ usizeCast (((getPlayer s pi.val).y : Int) + d.dy) < GAME_HEIGHT - 1)
    (hstone : s.grid (usizeCast (((getPlayer s pi.val).y : Int) + d.dy))
        (usizeCast (((getPlayer s pi.val).x : Int) + d.dx)) = CellState.Stone) :
    MoveStoneSpec s d pi := by
  obtain ⟨⟨sc0, wc0, sc1, wc1, x0, y0, x1, y1, hps⟩, hint0, hint1, hslot, hlog, hphi⟩ :=
    reachable_inv s hs
  have hA : getPlayer s 0 = ⟨1, x0, y0, [⟨1, "Stone", sc0⟩, ⟨2, "Wood", wc0⟩]⟩ := by
    simp [getPlayer, hps]
  have hB : getPlayer s 1 = ⟨2, x1, y1, [⟨1, "Stone", sc1⟩, ⟨2, "Wood", wc1⟩]⟩ := by
    simp [getPlayer, hps]
  rw [hA] at hint0
  rw [hB] at hint1
  have hiff : ∀ y x, y < GAME_HEIGHT → x < GAME_WIDTH →
      (s.grid y x = CellState.Player1Cell ↔ (y = y0 ∧ x = x0)) ∧
      (s.grid y x = CellState.Player2Cell ↔ (y = y1 ∧ x = x1)) := by
    intro y x hy hx
    have h := hslot.2 y x hy hx
    rw [hA, hB] at h
    exact h
  have hg0 : s.grid y0 x0 = CellState.Player1Cell :=
    (hiff y0 x0 (interior_yH hint0) (interior_xW hint0)).1.mpr ⟨rfl, rfl⟩
  have hg1 : s.grid y1 x1 = CellState.Player2Cell :=
    (hiff y1 x1 (interior_yH hint1) (interior_xW hint1)).2.mpr ⟨rfl, rfl⟩
  unfold MoveStoneSpec
  rcases pi with ⟨iv, hiv⟩
  interval_cases iv
  · rw [move_player_stone_collapsed d.dx d.dy 0 s hin hstone]
    set NX := usizeCast (((getPlayer s 0).x : Int) + d.dx) with hNXd
    set NY := usizeCast (((getPlayer s 0).y : Int) + d.dy) with hNYd
    have hnold : ¬ (NY = (getPlayer s 0).y ∧ NX = (getPlayer s 0).x) := by
      rw [hA]
      intro hcontr
      rw [hcontr.1, hcontr.2, hg0] at hstone
      cases hstone
    have hinc : incStone (getPlayer s 0)
        = ⟨1, x0, y0, [⟨1, "Stone", sc0 + 1⟩, ⟨2, "Wood", wc0⟩]⟩ := by
      rw [hA]
      rfl
    refine ⟨?_, ?_, ?_, ?_, ?_, ?_, ?_, ?_, rfl⟩
    · show setCell (setCell s.grid (getPlayer s 0).y (getPlayer s 0).x CellState.Empty)
        NY NX (slotCell 0) (getPlayer s 0).y (getPlayer s 0).x = CellState.Empty
      rw [setCell_ne _ _ _ _ (fun hc => hnold ⟨hc.1.symm, hc.2.symm⟩), setCell_self]
    · show setCell (setCell s.grid (getPlayer s 0).y (getPlayer s 0).x CellState.Empty)
        NY NX (slotCell 0) NY NX = slotCell 0
      rw [setCell_self]
    · show ((s.players.set 0 (incStone (getPlayer s 0))).set 0
          { incStone (getPlayer s 0) with x := NX, y := NY }).getD 0 defaultPlayer = _
      rw [List.set_set, hps]
      rfl
    · show (((s.players.set 0 (incStone (getPlayer s 0))).set 0
          { incStone (getPlayer s 0) with x := NX, y := NY }).getD 0
            defaultPlayer).stoneCount = (getPlayer s 0).stoneCount + 1
      rw [List.set_set, hps, hA]
      rfl
    · show ((s.players.set 0 (incStone (getPlayer s 0))).set 0
          { incStone (getPlayer s 0) with x := NX, y := NY }).getD 1 defaultPlayer
        = getPlayer s 1
      rw [List.set_set, hps, hB]
      rfl
    · intro y x hno hnn
      show setCell (setCell s.grid (getPlayer s 0).y (getPlayer s 0).x CellState.Empty)
        NY NX (slotCell 0) y x = s.grid y x
      rw [setCell_ne _ _ _ _ hnn, setCell_ne _ _ _ _ hno]
    · show logList s.debug_log (collectMsg 0 (incStone (getPlayer s 0)).stoneCount)
        = logList s.debug_log (collectMsg 0 ((getPlayer s 0).stoneCount + 1))
      rw [show (incStone (getPlayer s 0)).stoneCount = (getPlayer s 0).stoneCount + 1 by
        rw [hA]; rfl]
    · rw [hA]
  · rw [move_player_stone_collapsed d.dx d.dy 1 s hin hstone]
    set NX := usizeCast (((getPlayer s 1).x : Int) + d.dx) with hNXd
    set NY := usizeCast (((getPlayer s 1).y : Int) + d.dy) with hNYd
    have hnold : ¬ (NY = (getPlayer s 1).y ∧ NX = (getPlayer s 1).x) := by
      rw [hB]
      intro hcontr
      rw [hcontr.1, hcontr.2, hg1] at hstone
      cases hstone
    refine ⟨?_, ?_, ?_, ?_, ?_, ?_, ?_, ?_, rfl⟩
    · show setCell (setCell s.grid (getPlayer s 1).y (getPlayer s 1).x CellState.Empty)
        NY NX (slotCell 1) (getPlayer s 1).y (getPlayer s 1).x = CellState.Empty
      rw [setCell_ne _ _ _ _ (fun hc => hnold ⟨hc.1.symm, hc.2.symm⟩), setCell_self]
    · show setCell (setCell s.grid (getPlayer s 1).y (getPlayer s 1).x CellState.Empty)
        NY NX (slotCell 1) NY NX = slotCell 1
      rw [setCell_self]
    · show ((s.players.set 1 (incStone (getPlayer s 1))).set 1
          { incStone (getPlayer s 1) with x := NX, y := NY }).getD 1 defaultPlayer = _
      rw [List.set_set, hps]
      rfl
    · show (((s.players.set 1 (incStone (getPlayer s 1))).set 1
          { incStone (getPlayer s 1) with x := NX, y := NY }).getD 1
            defaultPlayer).stoneCount = (getPlayer s 1).stoneCount + 1
      rw [List.set_set, hps, hB]
      rfl
    · show ((s.players.set 1 (incStone (getPlayer s 1))).set 1
          { incStone (getPlayer s 1) with x := NX, y := NY }).getD 0 defaultPlayer
        = getPlayer s 0
      rw [List.set_set, hps, hA]
      rfl
    · intro y x hno hnn
      show setCell (setCell s.grid (getPlayer s 1).y (getPlayer s 1).x CellState.Empty)
        NY NX (slotCell 1) y x = s.grid y x
      rw [setCell_ne _ _ _ _ hnn, setCell_ne _ _ _ _ hno]
    · show logList s.debug_log (collectMsg 1 (incStone (getPlayer s 1)).stoneCount)
        = logList s.debug_log (collectMsg 1 ((getPlayer s 1).stoneCount + 1))
      rw [show (incStone (getPlayer s 1)).stoneCount = (getPlayer s 1).stoneCount + 1 by
        rw [hB]; rfl]
    · rw [hB]

theorem C3_move_into_stone_witness :
    MoveStoneSpec
      (runOps (GameState.new (fun _ _ => false) (fun x y => x == 4 && y == 2))
        [Op.move Dir.right 0])
      Dir.right 0 :=
  C3_move_into_stone _
    ⟨fun _ _ => false, fun x y => x == 4 && y == 2, [Op.move Dir.right 0], rfl⟩
    Dir.right 0 (by decide) (by decide)

/-- C4: a move whose candidate cell falls outside the open interior, or holds
Water, Wall, or the other actor's slot variant, leaves the whole state
unchanged. -/
theorem C4_move_noop (s : GameState) (d : Dir) (pi : Fin 2)
    (h : ¬ (0 < usizeCast (((getPlayer s pi.val).x : Int) + d.dx)
          ∧ 0 < usizeCast (((getPlayer s pi.val).y : Int) + d.dy)
          ∧ usizeCast (((getPlayer s pi.val).x : Int) + d.dx) < GAME_WIDTH - 1
          ∧ usizeCast (((getPlayer s pi.val).y : Int) + d.dy) < GAME_HEIGHT - 1)
      ∨ s.grid (usizeCast (((getPlayer s pi.val).y : Int) + d.dy))
          (usizeCast (((getPlayer s pi.val).x : Int) + d.dx)) = CellState.Water
      ∨ s.grid (usizeCast (((getPlayer s pi.val).y : Int) + d.dy))
          (usizeCast (((getPlayer s pi.val).x : Int) + d.dx)) = CellState.Wall
      ∨ s.grid (usizeCast (((getPlayer s pi.val).y : Int) + d.dy))
          (usizeCast (((getPlayer s pi.val).x : Int) + d.dx)) = slotCell (1 - pi.val)) :
    move_player d.dx d.dy pi.val s = s := by
  rcases h with h | h | h | h
  · exact move_player_out _ _ _ _ h
  · exact move_player_blocked _ _ _ _ (by rw [h]; simp) (by rw [h]; simp)
  · exact move_player_blocked _ _ _ _ (by rw [h]; simp) (by rw [h]; simp)
  · rcases pi with ⟨iv, hiv⟩
    interval_cases iv
    · rw [show (1 - 0) = 1 by rfl, slotCell_one] at h
      exact move_player_blocked _ _ _ _ (by rw [h]; simp) (by rw [h]; simp)
    · rw [show (1 - 1) = 0 by rfl, slotCell_zero] at h
      exact move_player_blocked _ _ _ _ (by rw [h]; simp) (by rw [h]; simp)

theorem C4_move_noop_witness :
    move_player Dir.up.dx Dir.up.dy (0 : Fin 2).val
      ⟨[⟨1, 5, 5, initItems⟩, ⟨2, 9, 9, initItems⟩],
        fun _ _ => CellState.Water, [], false⟩
      = ⟨[⟨1, 5, 5, initItems⟩, ⟨2, 9, 9, initItems⟩],
          fun _ _ => CellState.Water, [], false⟩ :=
  C4_move_noop
    ⟨[⟨1, 5, 5, initItems⟩, ⟨2, 9, 9, initItems⟩],
      fun _ _ => CellState.Water, [], false⟩
    Dir.up 0 (Or.inr (Or.inl rfl))

/-- Full effect claimed for a successful placement: the target cell becomes
Stone, the actor's Stone counter drops by exactly one while its position, id
and remaining inventory are untouched, the other player, every other cell and
the panel flag are unchanged, and exactly one success log entry is appended
through the bounded log. -/
def PlaceSuccessSpec (s : GameState) (tx ty : Nat) (pi : Fin 2) : Prop :=
  (place_stone tx ty pi.val s).grid ty tx = CellState.Stone
  ∧ (getPlayer (place_stone tx ty pi.val s) pi.val).stoneCount
      = (getPlayer s pi.val).stoneCount - 1
  ∧ (getPlayer (place_stone tx ty pi.val s) pi.val).x = (getPlayer s pi.val).x
  ∧ (getPlayer (place_stone tx ty pi.val s) pi.val).y = (getPlayer s pi.val).y
  ∧ (getPlayer (place_stone tx ty pi.val s) pi.val).player_id
      = (getPlayer s pi.val).player_id
  ∧ (getPlayer (place_stone tx ty pi.val s) pi.val).inventory.drop 1
      = (getPlayer s pi.val).inventory.drop 1
  ∧ getPlayer (place_stone tx ty pi.val s) (1 - pi.val) = getPlayer s (1 - pi.val)
  ∧ (∀ y x : Nat, ¬ (y = ty ∧ x = tx) →
      (place_stone tx ty pi.val s).grid y x = s.grid y x)
  ∧ (place_stone tx ty pi.val s).debug_log = logList s.debug_log (placedMsg pi.val tx ty)
  ∧ (place_stone tx ty pi.val s).debug_panel_enabled = s.debug_panel_enabled

/-- C5: in any reachable state, placing with Stone count at least 1 onto an
Empty in-bounds target at Chebyshev distance at most 1 succeeds as specified
by `PlaceSuccessSpec`. -/
theorem C5_place_success (s : GameState) (hs : Reachable s) (tx ty : Nat) (pi : Fin 2)
    (hcount : 1 ≤ (getPlayer s pi.val).stoneCount)
    (htx : tx < GAME_WIDTH) (hty : ty < GAME_HEIGHT)
    (hempty : s.grid ty tx = CellState.Empty)
    (hadj : ((tx : Int) - ((getPlayer s pi.val).x : Int)).natAbs ≤ 1
        ∧ ((ty : Int) - ((getPlayer s pi.val).y : Int)).natAbs ≤ 1) :
    PlaceSuccessSpec s tx ty pi := by
  have h1 : ¬ (GAME_WIDTH ≤ tx ∨ GAME_HEIGHT ≤ ty) := by omega
  have h3 : (getPlayer s pi.val).stoneCount ≠ 0 := by omega
  obtain ⟨⟨sc0, wc0, sc1, wc1, x0, y0, x1, y1, hps⟩, _, _, _, _, _⟩ := reachable_inv s hs
  have hA : getPlayer s 0 = ⟨1, x0, y0, [⟨1, "Stone", sc0⟩, ⟨2, "Wood", wc0⟩]⟩ := by
    simp [getPlayer, hps]
  have hB : getPlayer s 1 = ⟨2, x1, y1, [⟨1, "Stone", sc1⟩, ⟨2, "Wood", wc1⟩]⟩ := by
    simp [getPlayer, hps]
  unfold PlaceSuccessSpec
  rw [place_stone_success_collapsed tx ty pi.val s h1 hempty h3 hadj]
  rcases pi with ⟨iv, hiv⟩
  interval_cases iv
  · refine ⟨?_, ?_, ?_, ?_, ?_, ?_, ?_, ?_, rfl, rfl⟩
    · show setCell s.grid ty tx CellState.Stone ty tx = CellState.Stone
      rw [setCell_self]
    · show ((s.players.set 0 (decStone (getPlayer s 0))).getD 0 defaultPlayer).stoneCount
        = (getPlayer s 0).stoneCount - 1
      rw [hps, hA]
      rfl
    · show ((s.players.set 0 (decStone (getPlayer s 0))).getD 0 defaultPlayer).x
        = (getPlayer s 0).x
      rw [hps]
      rfl
    · show ((s.players.set 0 (decStone (getPlayer s 0))).getD 0 defaultPlayer).y
        = (getPlayer s 0).y
      rw [hps]
      rfl
    · show ((s.players.set 0 (decStone (getPlayer s 0))).getD 0 defaultPlayer).player_id
        = (getPlayer s 0).player_id
      rw [hps]
      rfl
    · show ((s.players.set 0 (decStone (getPlayer s 0))).getD 0
          defaultPlayer).inventory.drop 1 = (getPlayer s 0).inventory.drop 1
      rw [hps, hA]
      rfl
    · show (s.players.set 0 (decStone (getPlayer s 0))).getD 1 defaultPlayer
        = getPlayer s 1
      rw [hps, hB]
      rfl
    · intro y x hne
      show setCell s.grid ty tx CellState.Stone y x = s.grid y x
      rw [setCell_ne _ _ _ _ hne]
  · refine ⟨?_, ?_, ?_, ?_, ?_, ?_, ?_, ?_, rfl, rfl⟩
    · show setCell s.grid ty tx CellState.Stone ty tx = CellState.Stone
      rw [setCell_self]
    · show ((s.players.set 1 (decStone (getPlayer s 1))).getD 1 defaultPlayer).stoneCount
        = (getPlayer s 1).stoneCount - 1
      rw [hps, hB]
      rfl
    · show ((s.players.set 1 (decStone (getPlayer s 1))).getD 1 defaultPlayer).x
        = (getPlayer s 1).x
      rw [hps]
      rfl
    · show ((s.players.set 1 (decStone (getPlayer s 1))).getD 1 defaultPlayer).y
        = (getPlayer s 1).y
      rw [hps]
      rfl
    · show ((s.players.set 1 (decStone (getPlayer s 1))).getD 1 defaultPlayer).player_id
        = (getPlayer s 1).player_id
      rw [hps]
      rfl
    · show ((s.players.set 1 (decStone (getPlayer s 1))).getD 1
          defaultPlayer).inventory.drop 1 = (getPlayer s 1).inventory.drop 1
      rw [hps, hB]
      rfl
    · show (s.players.set 1 (decStone (getPlayer s 1))).getD 0 defaultPlayer
        = getPlayer s 0
      rw [hps, hA]
      rfl
    · intro y x hne
      show setCell s.grid ty tx CellState.Stone y x = s.grid y x
      rw [setCell_ne _ _ _ _ hne]

theorem C5_place_success_witness :
    PlaceSuccessSpec
      (runOps (GameState.new (fun _ _ => false) (fun x y => x == 4 && y == 2))
        [Op.move Dir.right 0, Op.move Dir.right 0])
      3 2 0 :=
  C5_place_success _
    ⟨fun _ _ => false, fun x y => x == 4 && y == 2,
      [Op.move Dir.right 0, Op.move Dir.right 0], rfl⟩
    3 2 0 (by decide) (by decide) (by decide) (by decide) (by decide)

/-- C6: every failing placement (out of bounds, non-Empty target, empty Stone
counter, or non-adjacent target) leaves the grid, the players and the panel
flag unchanged and appends exactly one entry through the bounded log. -/
theorem C6_place_failure (s : GameState) (pi : Fin 2) (tx ty : Nat)
    (h : (GAME_WIDTH ≤ tx ∨ GAME_HEIGHT ≤ ty)
      ∨ (tx < GAME_WIDTH ∧ ty < GAME_HEIGHT ∧ s.grid ty tx ≠ CellState.Empty)
      ∨ (tx < GAME_WIDTH ∧ ty < GAME_HEIGHT ∧ s.grid ty tx = CellState.Empty
          ∧ (getPlayer s pi.val).stoneCount = 0)
      ∨ (tx < GAME_WIDTH ∧ ty < GAME_HEIGHT ∧ s.grid ty tx = CellState.Empty
          ∧ (getPlayer s pi.val).stoneCount ≠ 0
          ∧ ¬ (((tx : Int) - ((getPlayer s pi.val).x : Int)).natAbs ≤ 1
              ∧ ((ty : Int) - ((getPlayer s pi.val).y : Int)).natAbs ≤ 1))) :
    (place_stone tx ty pi.val s).grid = s.grid
    ∧ (place_stone tx ty pi.val s).players = s.players
    ∧ (place_stone tx ty pi.val s).debug_panel_enabled = s.debug_panel_enabled
    ∧ ∃ m, (place_stone tx ty pi.val s).debug_log = logList s.debug_log m := by
  rcases h with h | ⟨hw, hh, h⟩ | ⟨hw, hh, he, hc⟩ | ⟨hw, hh, he, hc, hna⟩
  · rw [place_stone_oob_eq _ _ _ _ h]
    exact ⟨rfl, rfl, rfl, oobMsg tx ty, rfl⟩
  · rw [place_stone_notEmpty_eq _ _ _ _ (by omega) h]
    exact ⟨rfl, rfl, rfl, notEmptyMsg tx ty, rfl⟩
  · rw [place_stone_noStones_eq _ _ _ _ (by omega) he hc]
    exact ⟨rfl, rfl, rfl, noStonesMsg pi.val, rfl⟩
  · rw [place_stone_notAdj_eq _ _ _ _ (by omega) he hc hna]
    exact ⟨rfl, rfl, rfl, notAdjMsg tx ty pi.val, rfl⟩

theorem C6_place_failure_witness :
    (place_stone 100 0 (0 : Fin 2).val
        (GameState.new (fun _ _ => false) (fun _ _ => false))).grid
      = (GameState.new (fun _ _ => false) (fun _ _ => false)).grid
    ∧ (place_stone 100 0 (0 : Fin 2).val
        (GameState.new (fun _ _ => false) (fun _ _ => false))).players
      = (GameState.new (fun _ _ => false) (fun _ _ => false)).players
    ∧ (place_stone 100 0 (0 : Fin 2).val
        (GameState.new (fun _ _ => false) (fun _ _ => false))).debug_panel_enabled
      = (GameState.new (fun _ _ => false) (fun _ _ => false)).debug_panel_enabled
    ∧ ∃ m, (place_stone 100 0 (0 : Fin 2).val
        (GameState.new (fun _ _ => false) (fun _ _ => false))).debug_log
      = logList (GameState.new (fun _ _ => false) (fun _ _ => false)).debug_log m :=
  C6_place_failure (GameState.new (fun _ _ => false) (fun _ _ => false)) 0 100 0
    (Or.inl (by decide))

/-! ### Debug log FIFO (claim C7) -/

lemma logList_lt (l : List String) (m : String) (h : l.length < 10) :
    logList l m = l ++ [m] := by
  unfold logList
  rw [if_neg (by omega)]

lemma logList_ge (l : List String) (m : String) (h : 10 ≤ l.length) :
    logList l m = l.drop 1 ++ [m] := by
  unfold logList
  rw [if_pos h]

/-- Running a sequence of `log` commands keeps the last 10 entries of the
history, provided the starting log is within capacity. -/
lemma logFold_eq (msgs : List String) (s : GameState) (h : s.debug_log.length ≤ 10) :
    (runOps s (msgs.map Op.logMsg)).debug_log
      = (s.debug_log ++ msgs).drop (s.debug_log.length + msgs.length - 10) := by
  induction msgs generalizing s with
  | nil =>
      simp only [List.map_nil, List.length_nil, List.append_nil]
      rw [show s.debug_log.length + 0 - 10 = 0 by omega, List.drop_zero]
      rfl
  | cons m rest ih =>
      show (runOps (log_debug_message s m) (rest.map Op.logMsg)).debug_log = _
      rw [ih (log_debug_message s m) (logList_length_le _ _ h)]
      simp only [log_debug_message]
      by_cases hlen : s.debug_log.length < 10
      · rw [logList_lt _ _ hlen]
        have hc : (s.debug_log ++ [m]).length + rest.length - 10
            = s.debug_log.length + (m :: rest).length - 10 := by
          simp only [List.length_append, List.length_cons, List.length_nil]
          omega
        rw [hc, List.append_assoc]
        rfl
      · have hlen10 : s.debug_log.length = 10 := by omega
        rw [logList_ge _ _ (by omega)]
        have hcount1 : (s.debug_log.drop 1 ++ [m]).length + rest.length - 10
            = rest.length := by
          simp only [List.length_append, List.length_drop, List.length_cons,
            List.length_nil]
          omega
        have hcount2 : s.debug_log.length + (m :: rest).length - 10 = rest.length + 1 := by
          simp only [List.length_cons]
          omega
        rw [hcount1, hcount2, List.append_assoc,
          show rest.length + 1 = 1 + rest.length by omega, ← List.drop_drop,
          List.drop_append_of_le_length (show (1 : Nat) ≤ s.debug_log.length by omega)]
        rfl

/-- C7: every reachable state's debug log holds at most 10 entries, and 11
sequential `log` calls leave exactly the last 10 of the 11 messages, in
order; in particular the first message is gone whenever it differs from the
later ones. -/
theorem C7_log_fifo (s : GameState) (h : Reachable s)
    (m1 m2 m3 m4 m5 m6 m7 m8 m9 m10 m11 : String) :
    s.debug_log.length ≤ 10
    ∧ (runOps s [Op.logMsg m1, Op.logMsg m2, Op.logMsg m3, Op.logMsg m4, Op.logMsg m5,
        Op.logMsg m6, Op.logMsg m7, Op.logMsg m8, Op.logMsg m9, Op.logMsg m10,
        Op.logMsg m11]).debug_log
      = [m2, m3, m4, m5, m6, m7, m8, m9, m10, m11]
    ∧ (m1 ∉ ([m2, m3, m4, m5, m6, m7, m8, m9, m10, m11] : List String) →
        m1 ∉ (runOps s [Op.logMsg m1, Op.logMsg m2, Op.logMsg m3, Op.logMsg m4,
          Op.logMsg m5, Op.logMsg m6, Op.logMsg m7, Op.logMsg m8, Op.logMsg m9,
          Op.logMsg m10, Op.logMsg m11]).debug_log) := by
  have hlen : s.debug_log.length ≤ 10 := (reachable_inv s h).2.2.2.2.1
  have hrun := logFold_eq [m1, m2, m3, m4, m5, m6, m7, m8, m9, m10, m11] s hlen
  have hlist : (runOps s [Op.logMsg m1, Op.logMsg m2, Op.logMsg m3, Op.logMsg m4,
      Op.logMsg m5, Op.logMsg m6, Op.logMsg m7, Op.logMsg m8, Op.logMsg m9,
      Op.logMsg m10, Op.logMsg m11]).debug_log
      = [m2, m3, m4, m5, m6, m7, m8, m9, m10, m11] := by
    rw [show [Op.logMsg m1, Op.logMsg m2, Op.logMsg m3, Op.logMsg m4, Op.logMsg m5,
        Op.logMsg m6, Op.logMsg m7, Op.logMsg m8, Op.logMsg m9, Op.logMsg m10,
        Op.logMsg m11]
      = ([m1, m2, m3, m4, m5, m6, m7, m8, m9, m10, m11].map Op.logMsg) from rfl, hrun]
    rw [show s.debug_log.length
          + ([m1, m2, m3, m4, m5, m6, m7, m8, m9, m10, m11] : List String).length - 10
        = s.debug_log.length + 1 by simp only [List.length_cons, List.length_nil]; omega,
      ← List.drop_drop, List.drop_left]
    rfl
  refine ⟨hlen, hlist, ?_⟩
  intro hnot
  rw [hlist]
  exact hnot

theorem C7_log_fifo_witness :
    (GameState.new (fun _ _ => false) (fun _ _ => false)).debug_log.length ≤ 10
    ∧ (runOps (GameState.new (fun _ _ => false) (fun _ _ => false))
        [Op.logMsg "a1", Op.logMsg "a2", Op.logMsg "a3", Op.logMsg "a4", Op.logMsg "a5",
          Op.logMsg "a6", Op.logMsg "a7", Op.logMsg "a8", Op.logMsg "a9", Op.logMsg "a10",
          Op.logMsg "a11"]).debug_log
      = ["a2", "a3", "a4", "a5", "a6", "a7", "a8", "a9", "a10", "a11"]
    ∧ ("a1" ∉ (["a2", "a3", "a4", "a5", "a6", "a7", "a8", "a9", "a10", "a11"]
          : List String) →
        "a1" ∉ (runOps (GameState.new (fun _ _ => false) (fun _ _ => false))
          [Op.logMsg "a1", Op.logMsg "a2", Op.logMsg "a3", Op.logMsg "a4", Op.logMsg "a5",
            Op.logMsg "a6", Op.logMsg "a7", Op.logMsg "a8", Op.logMsg "a9",
            Op.logMsg "a10", Op.logMsg "a11"]).debug_log) :=
  C7_log_fifo (GameState.new (fun _ _ => false) (fun _ _ => false))
    ⟨fun _ _ => false, fun _ _ => false, [], rfl⟩
    "a1" "a2" "a3" "a4" "a5" "a6" "a7" "a8" "a9" "a10" "a11"

/-! ### Regeneration frame (claim C8) -/

lemma resetStone_x (p : Player) : (resetStone p).x = p.x := rfl

lemma resetStone_y (p : Player) : (resetStone p).y = p.y := rfl

lemma resetStone_id (p : Player) : (resetStone p).player_id = p.player_id := rfl

lemma resetStone_stoneCount (p : Player) : (resetStone p).stoneCount = 0 := by
  unfold resetStone Player.stoneCount
  cases p.inventory with
  | nil => rfl
  | cons a l => rfl

lemma resetStone_drop (p : Player) : (resetStone p).inventory.drop 1 = p.inventory.drop 1 := by
  unfold resetStone
  cases p.inventory with
  | nil => rfl
  | cons a l => rfl

lemma getPlayer_regen (water stone : Nat → Nat → Bool) (s : GameState) (i : Nat)
    (hi : i < s.players.length) :
    getPlayer (regenerate_game_state water stone s) i = resetStone (getPlayer s i) := by
  show (s.players.map resetStone).getD i defaultPlayer = _
  unfold getPlayer
  rw [List.getD_eq_getElem?_getD, List.getD_eq_getElem?_getD,
    List.getElem?_map, List.getElem?_eq_getElem hi]
  rfl

/-- C8: `regenerate` keeps every actor's position and id, zeroes its Stone
counter, and leaves the rest of the inventory (the Wood slot) untouched. -/
theorem C8_regenerate_frame (water stone : Nat → Nat → Bool) (s : GameState) :
    (regenerate_game_state water stone s).players.length = s.players.length
    ∧ ∀ i, i < s.players.length →
        (getPlayer (regenerate_game_state water stone s) i).x = (getPlayer s i).x
        ∧ (getPlayer (regenerate_game_state water stone s) i).y = (getPlayer s i).y
        ∧ (getPlayer (regenerate_game_state water stone s) i).player_id
          = (getPlayer s i).player_id
        ∧ (getPlayer (regenerate_game_state water stone s) i).stoneCount = 0
        ∧ (getPlayer (regenerate_game_state water stone s) i).inventory.drop 1
          = (getPlayer s i).inventory.drop 1 := by
  constructor
  · show (s.players.map resetStone).length = s.players.length
    exact List.length_map _ _
  · intro i hi
    rw [getPlayer_regen water stone s i hi]
    exact ⟨resetStone_x _, resetStone_y _, resetStone_id _, resetStone_stoneCount _,
      resetStone_drop _⟩

/-! ### Absence of panics (claim C9) -/

def USIZE_MAX : Nat := 2 ^ 64 - 1

def I32_MAX : Int := 2 ^ 31 - 1

def I32_MIN : Int := -(2 ^ 31)

def ISIZE_MAX : Int := 2 ^ 63 - 1

/-- `move_player` with a guard at every operation that can panic in Rust:
the `players[player_index]` accesses, debug-mode overflow of
`x as i32 + dx` (and the value-preservation of the `as i32` casts), the
`grid[player.y][player.x]` write, the `inventory[0]` access and the
debug-mode overflow of `item_count += 1`.  Returns `none` exactly when one of
those guards fails; otherwise the unchecked operation's result. -/
def move_playerChecked (dx dy : Int) (player_index : Nat) (s : GameState) :
    Option GameState :=
  if ¬ player_index < s.players.length then none
  else if ¬ (((getPlayer s player_index).x : Int) ≤ I32_MAX
      ∧ ((getPlayer s player_index).y : Int) ≤ I32_MAX
      ∧ I32_MIN ≤ ((getPlayer s player_index).x : Int) + dx
      ∧ ((getPlayer s player_index).x : Int) + dx ≤ I32_MAX
      ∧ I32_MIN ≤ ((getPlayer s player_index).y : Int) + dy
      ∧ ((getPlayer s player_index).y : Int) + dy ≤ I32_MAX) then none
  else if 0 < usizeCast (((getPlayer s player_index).x : Int) + dx)
      ∧ 0 < usizeCast (((getPlayer s player_index).y : Int) + dy)
      ∧ usizeCast (((getPlayer s player_index).x : Int) + dx) < GAME_WIDTH - 1
      ∧ usizeCast (((getPlayer s player_index).y : Int) + dy) < GAME_HEIGHT - 1 then
    match s.grid (usizeCast (((getPlayer s player_index).y : Int) + dy))
        (usizeCast (((getPlayer s player_index).x : Int) + dx)) with
    | CellState.Empty =>
        if (getPlayer s player_index).y < GAME_HEIGHT
            ∧ (getPlayer s player_index).x < GAME_WIDTH then
          some (move_player dx dy player_index s)
        else none
    | CellState.Stone =>
        if (getPlayer s player_index).inventory ≠ []
            ∧ (getPlayer s player_index).stoneCount + 1 ≤ USIZE_MAX
            ∧ (getPlayer s player_index).y < GAME_HEIGHT
            ∧ (getPlayer s player_index).x < GAME_WIDTH then
          some (move_player dx dy player_index s)
        else none
    | _ => some (move_player dx dy player_index s)
  else some (move_player dx dy player_index s)

/-- `place_stone` with a guard at every operation that can panic in Rust:
the `players[player_index]` accesses, the `inventory[0]` access behind the
two early returns, and the `as isize` casts of the adjacency test (only
reached with in-bounds coordinates).  The `grid[ty][tx]` reads/writes happen
only after the bounds check, and the decrement only in the branch where the
counter is nonzero, so they need no extra guard. -/
def place_stoneChecked (tx ty player_index : Nat) (s : GameState) :
    Option GameState :=
  if ¬ player_index < s.players.length then none
  else if GAME_WIDTH ≤ tx ∨ GAME_HEIGHT ≤ ty then
    some (place_stone tx ty player_index s)
  else if s.grid ty tx ≠ CellState.Empty then
    some (place_stone tx ty player_index s)
  else if (getPlayer s player_index).inventory = [] then none
  else if ¬ ((tx : Int) ≤ ISIZE_MAX ∧ (ty : Int) ≤ ISIZE_MAX
      ∧ ((getPlayer s player_index).x : Int) ≤ ISIZE_MAX
      ∧ ((getPlayer s player_index).y : Int) ≤ ISIZE_MAX) then none
  else some (place_stone tx ty player_index s)

/-- `regenerate_game_state` with guards for the `inventory[0]` write of every
player and the hard-coded `players[0]`/`players[1]` re-stamping writes
`grid[players[i].y][players[i].x]`. -/
def regenerate_game_stateChecked (water stone : Nat → Nat → Bool) (s : GameState) :
    Option GameState :=
  if (∀ p ∈ s.players, p.inventory ≠ []) ∧ 2 ≤ s.players.length
      ∧ (getPlayer s 0).y < GAME_HEIGHT ∧ (getPlayer s 0).x < GAME_WIDTH
      ∧ (getPlayer s 1).y < GAME_HEIGHT ∧ (getPlayer s 1).x < GAME_WIDTH then
    some (regenerate_game_state water stone s)
  else none

/-- The checked command surface; `log`, `clear` and `toggle_panel` cannot
panic (`remove(0)` runs only when the length is at least 10). -/
def applyOpChecked (s : GameState) : Op → Option GameState
  | .move d pi => move_playerChecked d.dx d.dy pi.val s
  | .place tx ty pi => place_stoneChecked tx ty pi.val s
  | .regen water stone => regenerate_game_stateChecked water stone s
  | .logMsg m => some (log_debug_message s m)
  | .clearLog => some (clear_debug_log s)
  | .togglePanel => some (toggle_panel s)

/-- C9: on every reachable state, every public command runs with all panic
guards satisfied: the checked operation returns exactly the unchecked
operation's result, never `none`. -/
theorem C9_no_panic (s : GameState) (hs : Reachable s) (op : Op) :
    applyOpChecked s op = some (applyOp s op) := by
  obtain ⟨⟨sc0, wc0, sc1, wc1, x0, y0, x1, y1, hps⟩, hint0, hint1, hslot, hlog, hphi⟩ :=
    reachable_inv s hs
  have hA : getPlayer s 0 = ⟨1, x0, y0, [⟨1, "Stone", sc0⟩, ⟨2, "Wood", wc0⟩]⟩ := by
    simp [getPlayer, hps]
  have hB : getPlayer s 1 = ⟨2, x1, y1, [⟨1, "Stone", sc1⟩, ⟨2, "Wood", wc1⟩]⟩ := by
    simp [getPlayer, hps]
  rw [hA] at hint0
  rw [hB] at hint1
  unfold interiorPos GAME_WIDTH GAME_HEIGHT at hint0 hint1
  have hint0' : 1 ≤ x0 ∧ x0 ≤ 60 - 2 ∧ 1 ≤ y0 ∧ y0 ≤ 30 - 2 := hint0
  have hint1' : 1 ≤ x1 ∧ x1 ≤ 60 - 2 ∧ 1 ≤ y1 ∧ y1 ≤ 30 - 2 := hint1
  have hx0 : (getPlayer s 0).x = x0 := by rw [hA]
  have hy0 : (getPlayer s 0).y = y0 := by rw [hA]
  have hx1 : (getPlayer s 1).x = x1 := by rw [hB]
  have hy1 : (getPlayer s 1).y = y1 := by rw [hB]
  have hsc0 : (getPlayer s 0).stoneCount = sc0 := by rw [hA]; rfl
  have hsc1 : (getPlayer s 1).stoneCount = sc1 := by rw [hB]; rfl
  have hne0 : (getPlayer s 0).inventory ≠ [] := by rw [hA]; simp
  have hne1 : (getPlayer s 1).inventory ≠ [] := by rw [hB]; simp
  have hlen : s.players.length = 2 := by
    rw [hps]
    rfl
  have hphi' : sc0 + sc1 + stoneCells s.grid ≤ 1800 := by
    unfold phi at hphi
    rw [hA, hB] at hphi
    simpa [Player.stoneCount, List.getD_cons_zero] using hphi
  cases op with
  | move d pi =>
      have hdx : -1 ≤ d.dx ∧ d.dx ≤ 1 := by cases d <;> simp [Dir.dx]
      have hdy : -1 ≤ d.dy ∧ d.dy ≤ 1 := by cases d <;> simp [Dir.dy]
      rcases pi with ⟨iv, hiv⟩
      interval_cases iv
      · show move_playerChecked d.dx d.dy 0 s = some (move_player d.dx d.dy 0 s)
        unfold move_playerChecked
        have hg1 : ((getPlayer s 0).x : Int) ≤ I32_MAX
            ∧ ((getPlayer s 0).y : Int) ≤ I32_MAX
            ∧ I32_MIN ≤ ((getPlayer s 0).x : Int) + d.dx
            ∧ ((getPlayer s 0).x : Int) + d.dx ≤ I32_MAX
            ∧ I32_MIN ≤ ((getPlayer s 0).y : Int) + d.dy
            ∧ ((getPlayer s 0).y : Int) + d.dy ≤ I32_MAX := by
          rw [hx0, hy0]
          unfold I32_MAX I32_MIN
          refine ⟨by omega, by omega, by omega, by omega, by omega, by omega⟩
        rw [if_neg (not_not_intro (by omega)), if_neg (not_not_intro hg1)]
        by_cases hin : 0 < usizeCast (((getPlayer s 0).x : Int) + d.dx)
            ∧ 0 < usizeCast (((getPlayer s 0).y : Int) + d.dy)
            ∧ usizeCast (((getPlayer s 0).x : Int) + d.dx) < GAME_WIDTH - 1
            ∧ usizeCast (((getPlayer s 0).y : Int) + d.dy) < GAME_HEIGHT - 1
        · rw [if_pos hin]
          cases hval : s.grid (usizeCast (((getPlayer s 0).y : Int) + d.dy))
              (usizeCast (((getPlayer s 0).x : Int) + d.dx)) with
          | Empty =>
              exact if_pos ⟨by rw [hy0]; unfold GAME_HEIGHT; omega,
                by rw [hx0]; unfold GAME_WIDTH; omega⟩
          | Stone =>
              exact if_pos ⟨hne0, by rw [hsc0]; unfold USIZE_MAX; omega,
                by rw [hy0]; unfold GAME_HEIGHT; omega,
                by rw [hx0]; unfold GAME_WIDTH; omega⟩
          | Player1Cell => rfl
          | Player2Cell => rfl
          | Water => rfl
          | Wall => rfl
        · rw [if_neg hin]
      · show move_playerChecked d.dx d.dy 1 s = some (move_player d.dx d.dy 1 s)
        unfold move_playerChecked
        have hg1 : ((getPlayer s 1).x : Int) ≤ I32_MAX
            ∧ ((getPlayer s 1).y : Int) ≤ I32_MAX
            ∧ I32_MIN ≤ ((getPlayer s 1).x : Int) + d.dx
            ∧ ((getPlayer s 1).x : Int) + d.dx ≤ I32_MAX
            ∧ I32_MIN ≤ ((getPlayer s 1).y : Int) + d.dy
            ∧ ((getPlayer s 1).y : Int) + d.dy ≤ I32_MAX := by
          rw [hx1, hy1]
          unfold I32_MAX I32_MIN
          refine ⟨by omega, by omega, by omega, by omega, by omega, by omega⟩
        rw [if_neg (not_not_intro (by omega)), if_neg (not_not_intro hg1)]
        by_cases hin : 0 < usizeCast (((getPlayer s 1).x : Int) + d.dx)
            ∧ 0 < usizeCast (((getPlayer s 1).y : Int) + d.dy)
            ∧ usizeCast (((getPlayer s 1).x : Int) + d.dx) < GAME_WIDTH - 1
            ∧ usizeCast (((getPlayer s 1).y : Int) + d.dy) < GAME_HEIGHT - 1
        · rw [if_pos hin]
          cases hval : s.grid (usizeCast (((getPlayer s 1).y : Int) + d.dy))
              (usizeCast (((getPlayer s 1).x : Int) + d.dx)) with
          | Empty =>
              exact if_pos ⟨by rw [hy1]; unfold GAME_HEIGHT; omega,
                by rw [hx1]; unfold GAME_WIDTH; omega⟩
          | Stone =>
              exact if_pos ⟨hne1, by rw [hsc1]; unfold USIZE_MAX; omega,
                by rw [hy1]; unfold GAME_HEIGHT; omega,
                by rw [hx1]; unfold GAME_WIDTH; omega⟩
          | Player1Cell => rfl
          | Player2Cell => rfl
          | Water => rfl
          | Wall => rfl
        · rw [if_neg hin]
  | place tx ty pi =>
      rcases pi with ⟨iv, hiv⟩
      interval_cases iv
      · show place_stoneChecked tx ty 0 s = some (place_stone tx ty 0 s)
        unfold place_stoneChecked
        rw [if_neg (not_not_intro (by omega))]
        by_cases h1 : GAME_WIDTH ≤ tx ∨ GAME_HEIGHT ≤ ty
        · rw [if_pos h1]
        rw [if_neg h1]
        by_cases h2 : s.grid ty tx ≠ CellState.Empty
        · rw [if_pos h2]
        rw [if_neg h2]
        unfold GAME_WIDTH GAME_HEIGHT at h1
        have hg : (tx : Int) ≤ ISIZE_MAX ∧ (ty : Int) ≤ ISIZE_MAX
            ∧ ((getPlayer s 0).x : Int) ≤ ISIZE_MAX
            ∧ ((getPlayer s 0).y : Int) ≤ ISIZE_MAX := by
          rw [hx0, hy0]
          unfold ISIZE_MAX
          refine ⟨by omega, by omega, by omega, by omega⟩
        rw [if_neg hne0, if_neg (not_not_intro hg)]
      · show place_stoneChecked tx ty 1 s = some (place_stone tx ty 1 s)
        unfold place_stoneChecked
        rw [if_neg (not_not_intro (by omega))]
        by_cases h1 : GAME_WIDTH ≤ tx ∨ GAME_HEIGHT ≤ ty
        · rw [if_pos h1]
        rw [if_neg h1]
        by_cases h2 : s.grid ty tx ≠ CellState.Empty
        · rw [if_pos h2]
        rw [if_neg h2]
        unfold GAME_WIDTH GAME_HEIGHT at h1
        have hg : (tx : Int) ≤ ISIZE_MAX ∧ (ty : Int) ≤ ISIZE_MAX
            ∧ ((getPlayer s 1).x : Int) ≤ ISIZE_MAX
            ∧ ((getPlayer s 1).y : Int) ≤ ISIZE_MAX := by
          rw [hx1, hy1]
          unfold ISIZE_MAX
          refine ⟨by omega, by omega, by omega, by omega⟩
        rw [if_neg hne1, if_neg (not_not_intro hg)]
  | regen water stone =>
      show regenerate_game_stateChecked water stone s
        = some (regenerate_game_state water stone s)
      unfold regenerate_game_stateChecked
      rw [if_pos]
      refine ⟨?_, by omega, by rw [hy0]; unfold GAME_HEIGHT; omega,
        by rw [hx0]; unfold GAME_WIDTH; omega,
        by rw [hy1]; unfold GAME_HEIGHT; omega,
        by rw [hx1]; unfold GAME_WIDTH; omega⟩
      intro p hp
      rw [hps] at hp
      rcases List.mem_cons.mp hp with rfl | hp2
      · simp
      · rcases List.mem_cons.mp hp2 with rfl | hp3
        · simp
        · cases hp3
  | logMsg m => rfl
  | clearLog => rfl
  | togglePanel => rfl

theorem C9_no_panic_witness :
    applyOpChecked (GameState.new (fun _ _ => false) (fun _ _ => false))
        (Op.move Dir.up 0)
      = some (applyOp (GameState.new (fun _ _ => false) (fun _ _ => false))
          (Op.move Dir.up 0)) :=
  C9_no_panic (GameState.new (fun _ _ => false) (fun _ _ => false))
    ⟨fun _ _ => false, fun _ _ => false, [], rfl⟩ (Op.move Dir.up 0)

/-- C10: when several placement failure conditions hold at once, the produced
log entry follows the fixed check order of `place_stone`: out-of-bounds
first, then non-Empty target, then empty Stone inventory, then
non-adjacency; each failing call equals the original state with exactly that
one message appended. -/
theorem C10_place_check_order (s : GameState) (pi : Fin 2) (tx ty : Nat) :
    (GAME_WIDTH ≤ tx ∨ GAME_HEIGHT ≤ ty →
        place_stone tx ty pi.val s = log_debug_message s (oobMsg tx ty))
    ∧ (tx < GAME_WIDTH → ty < GAME_HEIGHT → s.grid ty tx ≠ CellState.Empty →
        place_stone tx ty pi.val s = log_debug_message s (notEmptyMsg tx ty))
    ∧ (tx < GAME_WIDTH → ty < GAME_HEIGHT → s.grid ty tx = CellState.Empty →
        (getPlayer s pi.val).stoneCount = 0 →
        place_stone tx ty pi.val s = log_debug_message s (noStonesMsg pi.val))
    ∧ (tx < GAME_WIDTH → ty < GAME_HEIGHT → s.grid ty tx = CellState.Empty →
        (getPlayer s pi.val).stoneCount ≠ 0 →
        ¬ (((tx : Int) - ((getPlayer s pi.val).x : Int)).natAbs ≤ 1
            ∧ ((ty : Int) - ((getPlayer s pi.val).y : Int)).natAbs ≤ 1) →
        place_stone tx ty pi.val s = log_debug_message s (notAdjMsg tx ty pi.val)) :=
  ⟨fun h => place_stone_oob_eq _ _ _ _ h,
   fun h1 h2 h3 => place_stone_notEmpty_eq _ _ _ _ (by omega) h3,
   fun h1 h2 h3 h4 => place_stone_noStones_eq _ _ _ _ (by omega) h3 h4,
   fun h1 h2 h3 h4 h5 => place_stone_notAdj_eq _ _ _ _ (by omega) h3 h4 h5⟩

/-- Witness for the check order, covering both examples of the claim: the
target `(0, 5)` is an in-bounds border Wall cell, the actor has no stones and
the target is not adjacent, yet the only message logged is the
"cannot place, not empty" one. -/
theorem C10_place_check_order_witness :
    place_stone 0 5 (0 : Fin 2).val (GameState.new (fun _ _ => false) (fun _ _ => false))
      = log_debug_message (GameState.new (fun _ _ => false) (fun _ _ => false))
          (notEmptyMsg 0 5) :=
  (C10_place_check_order (GameState.new (fun _ _ => false) (fun _ _ => false)) 0 0 5).2.1
    (by decide) (by decide) (by decide)

theorem C8_regenerate_frame_witness :
    (regenerate_game_state (fun _ _ => false) (fun _ _ => false)
        (GameState.new (fun _ _ => false) (fun _ _ => false))).players.length
      = (GameState.new (fun _ _ => false) (fun _ _ => false)).players.length
    ∧ ((getPlayer (regenerate_game_state (fun _ _ => false) (fun _ _ => false)
          (GameState.new (fun _ _ => false) (fun _ _ => false))) 0).x
        = (getPlayer (GameState.new (fun _ _ => false) (fun _ _ => false)) 0).x
      ∧ (getPlayer (regenerate_game_state (fun _ _ => false) (fun _ _ => false)
          (GameState.new (fun _ _ => false) (fun _ _ => false))) 0).y
        = (getPlayer (GameState.new (fun _ _ => false) (fun _ _ => false)) 0).y
      ∧ (getPlayer (regenerate_game_state (fun _ _ => false) (fun _ _ => false)
          (GameState.new (fun _ _ => false) (fun _ _ => false))) 0).player_id
        = (getPlayer (GameState.new (fun _ _ => false) (fun _ _ => false)) 0).player_id
      ∧ (getPlayer (regenerate_game_state (fun _ _ => false) (fun _ _ => false)
          (GameState.new (fun _ _ => false) (fun _ _ => false))) 0).stoneCount = 0
      ∧ (getPlayer (regenerate_game_state (fun _ _ => false) (fun _ _ => false)
          (GameState.new (fun _ _ => false) (fun _ _ => false))) 0).inventory.drop 1
        = (getPlayer (GameState.new (fun _ _ => false) (fun _ _ => false)) 0).inventory.drop 1) :=
  ⟨(C8_regenerate_frame (fun _ _ => false) (fun _ _ => false)
      (GameState.new (fun _ _ => false) (fun _ _ => false))).1,
   (C8_regenerate_frame (fun _ _ => false) (fun _ _ => false)
      (GameState.new (fun _ _ => false) (fun _ _ => false))).2 0 (by decide)⟩

end RustDig
